import Mathlib

/-!
Verification development for the DNAir user-portal repository.

The repository centres on a validation engine for environmental-DNA project
submissions: five files (metadata, OTU table, taxonomy table, taxa metadata,
FASTA sequences) are parsed, checked against per-file format specifications,
and checked for cross-file identifier consistency, producing a single ordered
ValidationReport.  The engine itself (edna-data/validate_files.py) is not part
of the delivered sources, so it is modelled here from the design document,
definition by definition.  The React frontend components that ARE present
(ProjectSummary.jsx, CloudTest.jsx) are embedded directly at the end.
-/

namespace DNAir

/-- Severity tiers of a validation issue. -/
inductive Severity
| fatal
| error
| warning
deriving DecidableEq

/-- The five file roles of a project submission. -/
inductive Role
| metadata
| otuTable
| taxTable
| taxaMetadata
| sequences
deriving DecidableEq

/-- Machine-readable issue kinds, as enumerated in the error-handling design. -/
inductive IssueKind
| MissingArtifact
| MalformedRow
| MissingColumn
| TypeMismatch
| DuplicateKey
| DuplicateSequenceID
| InvalidSequenceCharacter
| OutOfRange
| InvalidEnum
| UnexpectedColumn
| OrphanSampleID
| OrphanOTU
| MissingSequenceForOTU
| UnmetadatedSpecies
| UnusedSequence
| IOFailure
deriving DecidableEq

/-- Modelled from the spec: a ValidationIssue carries a severity, the file role
it concerns, an issue kind and an identifier / locator text (rows are located
by their key-column value, which is what keeps reports stable under row
reordering). -/
structure ValidationIssue where
  severity : Severity
  role : Role
  kind : IssueKind
  ident : String
deriving DecidableEq

def mkIssue (sev : Severity) (role : Role) (kind : IssueKind) (ident : String) : ValidationIssue :=
  ⟨sev, role, kind, ident⟩

/-- Modelled from the spec: a ValidationReport is an ordered sequence of
issues; acceptability is derived. -/
structure ValidationReport where
  issues : List ValidationIssue
deriving DecidableEq

/-- Modelled from the spec: isAcceptable = true iff no issue has severity
fatal or error. -/
def ValidationReport.isAcceptable (r : ValidationReport) : Bool :=
  !(r.issues.any (fun i => i.severity == Severity.fatal || i.severity == Severity.error))

/- ### Character-level utilities (kernel-friendly replacements for String ops) -/

def ofChars (l : List Char) : String := String.mk l

def splitTabAux (cur : List Char) : List Char → List String
| [] => [ofChars cur.reverse]
| c :: cs => if c = '\t' then ofChars cur.reverse :: splitTabAux [] cs else splitTabAux (c :: cur) cs

/-- Split a line into tab-separated fields. -/
def splitTab (s : String) : List String := splitTabAux [] s.data

/-- Strip one trailing carriage return. -/
def stripCR (s : String) : String :=
  match s.data.reverse with
  | '\r' :: rest => ofChars rest.reverse
  | _ => s

/-- Strip a leading byte-order mark. -/
def stripBOM (s : String) : String :=
  match s.data with
  | c :: rest => if c = '\uFEFF' then ofChars rest else s
  | [] => s

/-- Clean raw lines: BOM stripped from the first line, carriage returns from
all lines. -/
def cleanLines (lines : List String) : List String :=
  match lines with
  | [] => []
  | l :: ls => stripBOM (stripCR l) :: ls.map stripCR

/-- The cleaned lines with leading empty lines dropped, so that the first
element (when any) is the header line. -/
def headerAndBody (lines : List String) : List String :=
  (cleanLines lines).dropWhile (fun l => l == "")

/- ### Order-preserving deduplication (first-encountered order) -/

def firstDedupAux : List String → List String → List String
| [], _ => []
| x :: xs, seen => if x ∈ seen then firstDedupAux xs seen else x :: firstDedupAux xs (x :: seen)

/-- Deduplicate a list of identifiers keeping the first occurrence of each,
in first-encountered order. -/
def firstDedup (l : List String) : List String := firstDedupAux l []

/- ### ParsedTable and the tabular parser -/

/-- Modelled from the spec: a parsed table is an ordered header and ordered
rows; the parser guarantees every retained row has the header's width. -/
structure ParsedTable where
  header : List String
  rows : List (List String)
deriving DecidableEq

/-- Modelled from the spec (TabularParser): the first non-empty line is the
header; later lines are split on tabs; a line whose field count differs from
the header width becomes a MalformedRow issue and is excluded; an empty file
(no header) yields an empty table plus one fatal structural issue. -/
def parseTable (role : Role) (lines : List String) : ParsedTable × List ValidationIssue :=
  match headerAndBody lines with
  | [] => (⟨[], []⟩, [mkIssue Severity.fatal role IssueKind.MalformedRow "empty file"])
  | h :: body =>
    let header := splitTab h
    let fields := body.map splitTab
    let good := fields.filter (fun r => r.length == header.length)
    let bad := fields.filter (fun r => !(r.length == header.length))
    (⟨header, good⟩, bad.map (fun r => mkIssue Severity.error role IssueKind.MalformedRow (r.headD "")))

/- ### FASTA parsing -/

structure FastaRecord where
  id : String
  seq : String
deriving DecidableEq

def isSpaceChar (c : Char) : Bool := c == ' ' || c == '\t'

/-- The sequence identifier of a FASTA header: the first whitespace-delimited
token after the leading marker. -/
def fastaIdOf (l : List Char) : String := ofChars (l.takeWhile (fun c => !isSpaceChar c))

def fastaRecordsAux : List (List Char) → Option (String × List Char) → List FastaRecord
| [], none => []
| [], some (i, acc) => [⟨i, ofChars acc⟩]
| l :: ls, cur =>
  match l with
  | '>' :: rest =>
    (match cur with
     | none => fastaRecordsAux ls (some (fastaIdOf rest, []))
     | some (i, acc) => ⟨i, ofChars acc⟩ :: fastaRecordsAux ls (some (fastaIdOf rest, [])))
  | _ =>
    (match cur with
     | none => fastaRecordsAux ls none
     | some (i, acc) => fastaRecordsAux ls (some (i, acc ++ l)))

/-- Modelled from the spec (SequenceParser): header lines start a record,
sequence lines are concatenated until the next header or end of file. -/
def fastaRecords (lines : List String) : List FastaRecord :=
  fastaRecordsAux ((cleanLines lines).map String.data) none

def seqKeys (recs : List FastaRecord) : List String := recs.map (fun r => r.id)

def buildSeqSetAux : List FastaRecord → List String → List (String × String)
| [], _ => []
| r :: rs, seen =>
  if r.id ∈ seen then buildSeqSetAux rs seen
  else (r.id, r.seq) :: buildSeqSetAux rs (r.id :: seen)

/-- Modelled from the spec: the SequenceSet maps each identifier to its first
sequence (no silent overwrite — the duplicate is reported instead). -/
def buildSeqSet (recs : List FastaRecord) : List (String × String) :=
  buildSeqSetAux recs []

/-- Accepted nucleotide and IUPAC ambiguity codes (with gap). -/
def nucleotideChars : List Char :=
  ['A','C','G','T','U','R','Y','S','W','K','M','B','D','H','V','N',
   'a','c','g','t','u','r','y','s','w','k','m','b','d','h','v','n','-']

def validSeqString (s : String) : Bool := s.data.all (fun c => c ∈ nucleotideChars)

/-- Modelled from the spec (SequenceParser issues): one fatal
DuplicateSequenceID per repeated identifier, in first-encountered order, then
one error InvalidSequenceCharacter per record containing a character outside
the accepted alphabet, located by the record identifier. -/
def fastaIssues (recs : List FastaRecord) : List ValidationIssue :=
  ((firstDedup (seqKeys recs)).filter
      (fun i => decide (2 ≤ (seqKeys recs).count i))).map
    (mkIssue Severity.fatal Role.sequences IssueKind.DuplicateSequenceID)
  ++ (recs.filter (fun r => !validSeqString r.seq)).map
      (fun r => mkIssue Severity.error Role.sequences IssueKind.InvalidSequenceCharacter r.id)

def parseFasta (lines : List String) : List (String × String) × List ValidationIssue :=
  (buildSeqSet (fastaRecords lines), fastaIssues (fastaRecords lines))

/- ### Type coercion of raw cell values -/

/-- Semantic column types of the format specifications. -/
inductive ColType
| str
| float
| int
| timestamp
deriving DecidableEq

def isDigitChar (c : Char) : Bool := 48 ≤ c.toNat && c.toNat ≤ 57

def digitVal (c : Char) : Nat := c.toNat - 48

def natOfDigits (l : List Char) : Nat := l.foldl (fun a c => a * 10 + digitVal c) 0

/-- An exact decimal number: value = num / 10 ^ exp. -/
structure Dec where
  num : Int
  exp : Nat
deriving DecidableEq

def parseDecCore (l : List Char) : Option Dec :=
  let intPart := l.takeWhile isDigitChar
  let rest := l.dropWhile isDigitChar
  if intPart.isEmpty then none
  else
    match rest with
    | [] => some ⟨natOfDigits intPart, 0⟩
    | '.' :: frac =>
      if !frac.isEmpty && frac.all isDigitChar then
        some ⟨natOfDigits (intPart ++ frac), frac.length⟩
      else none
    | _ => none

/-- Modelled from the spec: coercion of a raw string to a float, as an exact
signed decimal literal. -/
def parseDec (s : String) : Option Dec :=
  match s.data with
  | '-' :: rest => (parseDecCore rest).map (fun d => ⟨-d.num, d.exp⟩)
  | l => parseDecCore l

/-- Whether the decimal lies in the closed integer-bounded interval. -/
def Dec.withinInt (d : Dec) (lo hi : Int) : Bool :=
  decide (lo * (10 : Int) ^ d.exp ≤ d.num) && decide (d.num ≤ hi * (10 : Int) ^ d.exp)

/-- Modelled from the spec: coercion of a raw string to a non-negative
integer count (digits only). -/
def parseCount (s : String) : Option Nat :=
  if !s.data.isEmpty && s.data.all isDigitChar then some (natOfDigits s.data) else none

/-- Modelled from the spec: the source material fixes no timestamp grammar, so
a timestamp is modelled as any non-empty value. -/
def coercesTimestamp (s : String) : Bool := !s.data.isEmpty

def coerces (t : ColType) (s : String) : Bool :=
  match t with
  | ColType.str => true
  | ColType.float => (parseDec s).isSome
  | ColType.int => (parseCount s).isSome
  | ColType.timestamp => coercesTimestamp s

/- ### Format specifications -/

/-- Declared per-column value restriction: none, a numeric range with integer
bounds, or an enumerated value set. -/
inductive ValueCheck
| noCheck
| intRange (lo hi : Int)
| enumOf (allowed : List String)
deriving DecidableEq

structure ColumnSpec where
  name : String
  ctype : ColType
  vcheck : ValueCheck
deriving DecidableEq

/-- Modelled from the spec (FormatSpecRegistry): required columns with types
and value restrictions, declared-unique columns, and the key column used to
locate rows in issue messages. -/
structure FormatSpec where
  requiredCols : List ColumnSpec
  uniqueCols : List String
  keyCol : String
deriving DecidableEq

def redListStatuses : List String := ["LC", "NT", "VU", "EN", "CR", "EW", "EX", "DD", "NE"]

def invasionStatuses : List String := ["native", "invasive", "unknown"]

def metadataSpec : FormatSpec :=
  ⟨[⟨"SampleID", ColType.str, ValueCheck.noCheck⟩,
    ⟨"Latitude", ColType.float, ValueCheck.intRange (-90) 90⟩,
    ⟨"Longitude", ColType.float, ValueCheck.intRange (-180) 180⟩,
    ⟨"SamplingTime", ColType.timestamp, ValueCheck.noCheck⟩],
   ["SampleID"], "SampleID"⟩

def taxTableSpec : FormatSpec :=
  ⟨[⟨"OTU", ColType.str, ValueCheck.noCheck⟩,
    ⟨"Kingdom", ColType.str, ValueCheck.noCheck⟩,
    ⟨"Phylum", ColType.str, ValueCheck.noCheck⟩,
    ⟨"Class", ColType.str, ValueCheck.noCheck⟩,
    ⟨"Order", ColType.str, ValueCheck.noCheck⟩,
    ⟨"Family", ColType.str, ValueCheck.noCheck⟩,
    ⟨"Genus", ColType.str, ValueCheck.noCheck⟩,
    ⟨"Species", ColType.str, ValueCheck.noCheck⟩],
   ["OTU"], "OTU"⟩

def taxaMetadataSpec : FormatSpec :=
  ⟨[⟨"Species", ColType.str, ValueCheck.noCheck⟩,
    ⟨"RedListStatus", ColType.str, ValueCheck.enumOf redListStatuses⟩,
    ⟨"InvasionStatus", ColType.str, ValueCheck.enumOf invasionStatuses⟩],
   ["Species"], "Species"⟩

/- ### Cell access -/

def getCell : List String → List String → String → Option String
| h :: hs, v :: vs, c => if h = c then some v else getCell hs vs c
| _, _, _ => none

/-- All values of a named column, in row order. -/
def colValues (t : ParsedTable) (c : String) : List String :=
  t.rows.filterMap (fun r => getCell t.header r c)

/-- The locator text for a row: its key-column value, falling back to the
first field. -/
def rowName (header : List String) (keyCol : String) (r : List String) : String :=
  (getCell header r keyCol).getD (r.headD "")

/- ### SchemaValidator -/

/-- Per-file cap on reported per-row TypeMismatch instances. -/
def capTM : Nat := 3

/-- Modelled from the spec: per-row TypeMismatch instances are capped per file,
with a trailing summary entry when the cap is exceeded. -/
def capIssues (role : Role) (l : List ValidationIssue) : List ValidationIssue :=
  if l.length ≤ capTM then l
  else l.take capTM ++ [mkIssue Severity.error role IssueKind.TypeMismatch "further instances omitted"]

def cellCoerces (c : ColumnSpec) (header : List String) (r : List String) : Bool :=
  match getCell header r c.name with
  | some v => coerces c.ctype v
  | none => true

def passesCheck (v : ValueCheck) (s : String) : Bool :=
  match v with
  | ValueCheck.noCheck => true
  | ValueCheck.intRange lo hi =>
    (match parseDec s with
     | some d => d.withinInt lo hi
     | none => true)
  | ValueCheck.enumOf allowed => decide (s ∈ allowed)

def cellInRange (c : ColumnSpec) (header : List String) (r : List String) : Bool :=
  match getCell header r c.name with
  | some v => if coerces c.ctype v then passesCheck c.vcheck v else true
  | none => true

def checkKindOf : ValueCheck → IssueKind
| ValueCheck.noCheck => IssueKind.OutOfRange
| ValueCheck.intRange _ _ => IssueKind.OutOfRange
| ValueCheck.enumOf _ => IssueKind.InvalidEnum

/-- Modelled from the spec: fatal MissingColumn per absent required column. -/
def missingColIssues (role : Role) (spec : FormatSpec) (t : ParsedTable) : List ValidationIssue :=
  (spec.requiredCols.filter (fun c => !(decide (c.name ∈ t.header)))).map
    (fun c => mkIssue Severity.fatal role IssueKind.MissingColumn c.name)

/-- The uncapped list of per-row TypeMismatch instances, per required column,
rows located by key value. -/
def typeIssuesRaw (role : Role) (spec : FormatSpec) (t : ParsedTable) : List ValidationIssue :=
  (spec.requiredCols.filter (fun c => decide (c.name ∈ t.header))).flatMap
    (fun c =>
      (t.rows.filter (fun r => !cellCoerces c t.header r)).map
        (fun r => mkIssue Severity.error role IssueKind.TypeMismatch
          (rowName t.header spec.keyCol r)))

/-- Modelled from the spec: error TypeMismatch per row whose value fails type
coercion, per required column, rows located by key value, capped per file. -/
def typeIssues (role : Role) (spec : FormatSpec) (t : ParsedTable) : List ValidationIssue :=
  capIssues role (typeIssuesRaw role spec t)

/-- Modelled from the spec: error OutOfRange / InvalidEnum per row whose value
coerces but violates the declared range or enumeration. -/
def rangeIssues (role : Role) (spec : FormatSpec) (t : ParsedTable) : List ValidationIssue :=
  (spec.requiredCols.filter (fun c => decide (c.name ∈ t.header))).flatMap
    (fun c =>
      (t.rows.filter (fun r => !cellInRange c t.header r)).map
        (fun r => mkIssue Severity.error role (checkKindOf c.vcheck)
          (rowName t.header spec.keyCol r)))

/-- Modelled from the spec: error DuplicateKey per declared-unique column value
occurring more than once, named by the duplicated value. -/
def dupKeyIssues (role : Role) (spec : FormatSpec) (t : ParsedTable) : List ValidationIssue :=
  spec.uniqueCols.flatMap
    (fun k =>
      if decide (k ∈ t.header) then
        ((firstDedup (colValues t k)).filter
            (fun v => decide (2 ≤ (colValues t k).count v))).map
          (mkIssue Severity.error role IssueKind.DuplicateKey)
      else [])

/-- Modelled from the spec: warning UnexpectedColumn per undeclared column,
never fatal. -/
def unexpectedColIssues (role : Role) (spec : FormatSpec) (t : ParsedTable) : List ValidationIssue :=
  ((firstDedup t.header).filter
      (fun h => !(decide (h ∈ spec.requiredCols.map (fun c => c.name))))).map
    (mkIssue Severity.warning role IssueKind.UnexpectedColumn)

/-- Modelled from the spec (SchemaValidator): all per-file checks, collected
without short-circuiting. -/
def checkTable (role : Role) (spec : FormatSpec) (t : ParsedTable) : List ValidationIssue :=
  missingColIssues role spec t ++ typeIssues role spec t ++ rangeIssues role spec t
  ++ dupKeyIssues role spec t ++ unexpectedColIssues role spec t

/- ### OTU table (positional schema) -/

/-- The OTU identifiers of an OTU table: all column headers after the leading
SampleID column. -/
def otuHeaderIDs (t : ParsedTable) : List String := t.header.drop 1

/-- The SampleID of each OTU-table row (first field). -/
def otuSampleIDs (t : ParsedTable) : List String := t.rows.map (fun r => r.headD "")

def otuRowBad (r : List String) : Bool := (r.drop 1).any (fun v => !(parseCount v).isSome)

/-- The uncapped list of per-row TypeMismatch instances of the OTU table. -/
def otuTypeRaw (t : ParsedTable) : List ValidationIssue :=
  (t.rows.filter otuRowBad).map
    (fun r => mkIssue Severity.error Role.otuTable IssueKind.TypeMismatch (r.headD ""))

/-- Modelled from the spec: the OTU table requires a leading SampleID column,
non-negative integer counts in all remaining cells (TypeMismatch per offending
row, capped), and unique SampleID rows. -/
def checkOtuTable (t : ParsedTable) : List ValidationIssue :=
  (if t.header.headD "" = "SampleID" then []
   else [mkIssue Severity.fatal Role.otuTable IssueKind.MissingColumn "SampleID"])
  ++ capIssues Role.otuTable (otuTypeRaw t)
  ++ ((firstDedup (otuSampleIDs t)).filter
        (fun v => decide (2 ≤ (otuSampleIDs t).count v))).map
      (mkIssue Severity.error Role.otuTable IssueKind.DuplicateKey)

/- ### CrossReferenceValidator -/

def metaSampleIDs (t : ParsedTable) : List String := colValues t "SampleID"

def taxOTUs (t : ParsedTable) : List String := colValues t "OTU"

def taxSpecies (t : ParsedTable) : List String := colValues t "Species"

def taxaMetaSpecies (t : ParsedTable) : List String := colValues t "Species"

def seqSetKeys (s : List (String × String)) : List String := s.map (fun p => p.1)

/-- One issue per violating identifier (not per occurrence), identifiers in
first-encountered order in the source artifact. -/
def orphanIssues (sev : Severity) (role : Role) (kind : IssueKind)
    (src target : List String) : List ValidationIssue :=
  ((firstDedup src).filter (fun x => !(decide (x ∈ target)))).map (mkIssue sev role kind)

/-- The five parsed artifacts available to the cross-reference checks. -/
structure Artifacts where
  meta : Option ParsedTable
  otu : Option ParsedTable
  tax : Option ParsedTable
  taxaMeta : Option ParsedTable
  seqs : Option (List (String × String))

/-- A cross-reference check is skipped when either artifact is missing. -/
def pairCheck {α β : Type} (a : Option α) (b : Option β)
    (f : α → β → List ValidationIssue) : List ValidationIssue :=
  match a, b with
  | some x, some y => f x y
  | _, _ => []

/-- Modelled from the spec (CrossReferenceValidator): the identifier-consistency
checks across the parsed artifacts, grouped by check type in a fixed order. -/
def crossIssues (a : Artifacts) : List ValidationIssue :=
  pairCheck a.otu a.meta
    (fun ot mt => orphanIssues Severity.error Role.otuTable IssueKind.OrphanSampleID
      (otuSampleIDs ot) (metaSampleIDs mt))
  ++ pairCheck a.meta a.otu
      (fun mt ot => orphanIssues Severity.error Role.metadata IssueKind.OrphanSampleID
        (metaSampleIDs mt) (otuSampleIDs ot))
  ++ pairCheck a.otu a.tax
      (fun ot tt => orphanIssues Severity.error Role.otuTable IssueKind.OrphanOTU
        (otuHeaderIDs ot) (taxOTUs tt))
  ++ pairCheck a.otu a.seqs
      (fun ot sq => orphanIssues Severity.error Role.otuTable IssueKind.MissingSequenceForOTU
        (otuHeaderIDs ot) (seqSetKeys sq))
  ++ pairCheck a.tax a.taxaMeta
      (fun tt am => orphanIssues Severity.warning Role.taxTable IssueKind.UnmetadatedSpecies
        (taxSpecies tt) (taxaMetaSpecies am))
  ++ pairCheck a.seqs a.otu
      (fun sq ot => orphanIssues Severity.warning Role.sequences IssueKind.UnusedSequence
        (seqSetKeys sq) (otuHeaderIDs ot))

/- ### ValidationRun -/

/-- The raw contents of a project file set: each of the five expected files is
either present (its lines) or missing. -/
structure RawFileSet where
  metadata : Option (List String)
  otuTable : Option (List String)
  taxTable : Option (List String)
  taxaMetadata : Option (List String)
  sequences : Option (List String)
deriving DecidableEq

def fileNameOf : Role → String
| Role.metadata => "metadata.txt"
| Role.otuTable => "otu_table.txt"
| Role.taxTable => "tax_table.txt"
| Role.taxaMetadata => "taxa_metadata.txt"
| Role.sequences => "sequences.fasta"

def RawFileSet.file (fs : RawFileSet) : Role → Option (List String)
| Role.metadata => fs.metadata
| Role.otuTable => fs.otuTable
| Role.taxTable => fs.taxTable
| Role.taxaMetadata => fs.taxaMetadata
| Role.sequences => fs.sequences

/-- Replace the contents of one file slot. -/
def RawFileSet.withFile (fs : RawFileSet) : Role → Option (List String) → RawFileSet
| Role.metadata, o => { fs with metadata := o }
| Role.otuTable, o => { fs with otuTable := o }
| Role.taxTable, o => { fs with taxTable := o }
| Role.taxaMetadata, o => { fs with taxaMetadata := o }
| Role.sequences, o => { fs with sequences := o }

/-- The uncapped per-row TypeMismatch instances a table contributes, by role. -/
def tmRawOf (role : Role) (t : ParsedTable) : List ValidationIssue :=
  match role with
  | Role.metadata => typeIssuesRaw Role.metadata metadataSpec t
  | Role.otuTable => otuTypeRaw t
  | Role.taxTable => typeIssuesRaw Role.taxTable taxTableSpec t
  | Role.taxaMetadata => typeIssuesRaw Role.taxaMetadata taxaMetadataSpec t
  | Role.sequences => []

def missingFor (role : Role) (o : Option (List String)) : List ValidationIssue :=
  match o with
  | some _ => []
  | none => [mkIssue Severity.fatal role IssueKind.MissingArtifact (fileNameOf role)]

/-- Modelled from the spec: one fatal MissingArtifact issue per absent file;
missing files do not abort the run. -/
def missingIssues (fs : RawFileSet) : List ValidationIssue :=
  missingFor Role.metadata fs.metadata ++ missingFor Role.otuTable fs.otuTable
  ++ missingFor Role.taxTable fs.taxTable ++ missingFor Role.taxaMetadata fs.taxaMetadata
  ++ missingFor Role.sequences fs.sequences

def parsedTableOf (role : Role) (o : Option (List String)) : Option ParsedTable :=
  o.map (fun ls => (parseTable role ls).1)

def parseIssuesOf (role : Role) (o : Option (List String)) : List ValidationIssue :=
  match o with
  | none => []
  | some ls => (parseTable role ls).2

def seqSetOf (o : Option (List String)) : Option (List (String × String)) :=
  o.map (fun ls => (parseFasta ls).1)

def seqIssuesOf (o : Option (List String)) : List ValidationIssue :=
  match o with
  | none => []
  | some ls => (parseFasta ls).2

def optCheck {α : Type} (f : α → List ValidationIssue) : Option α → List ValidationIssue
| none => []
| some x => f x

def artifactsOf (fs : RawFileSet) : Artifacts :=
  ⟨parsedTableOf Role.metadata fs.metadata,
   parsedTableOf Role.otuTable fs.otuTable,
   parsedTableOf Role.taxTable fs.taxTable,
   parsedTableOf Role.taxaMetadata fs.taxaMetadata,
   seqSetOf fs.sequences⟩

/-- Modelled from the spec (ValidationRun / ReportBuilder): parse issues per
file, then schema issues per parsed file, then one MissingArtifact per absent
file, then the cross-reference issues, in one fixed order. -/
def validateIssues (fs : RawFileSet) : List ValidationIssue :=
  parseIssuesOf Role.metadata fs.metadata
  ++ parseIssuesOf Role.otuTable fs.otuTable
  ++ parseIssuesOf Role.taxTable fs.taxTable
  ++ parseIssuesOf Role.taxaMetadata fs.taxaMetadata
  ++ seqIssuesOf fs.sequences
  ++ optCheck (checkTable Role.metadata metadataSpec) (parsedTableOf Role.metadata fs.metadata)
  ++ optCheck checkOtuTable (parsedTableOf Role.otuTable fs.otuTable)
  ++ optCheck (checkTable Role.taxTable taxTableSpec) (parsedTableOf Role.taxTable fs.taxTable)
  ++ optCheck (checkTable Role.taxaMetadata taxaMetadataSpec)
      (parsedTableOf Role.taxaMetadata fs.taxaMetadata)
  ++ missingIssues fs
  ++ crossIssues (artifactsOf fs)

/-- Modelled from the spec: validate is a pure function of the file-set
contents producing the finalized report. -/
def validate (fs : RawFileSet) : ValidationReport := ⟨validateIssues fs⟩

/- ### Well-formedness of a file set (the hypotheses of the acceptance property) -/

/-- A tabular file satisfies its FormatSpec: it has a header, every data line
has the header's width, every required column is present, every value is
coercible to its declared type and within its declared range, and every
declared-unique column is duplicate-free. -/
def tableWellFormed (spec : FormatSpec) (lines : List String) : Bool :=
  match headerAndBody lines with
  | [] => false
  | h :: body =>
    let header := splitTab h
    let fields := body.map splitTab
    fields.all (fun r => r.length == header.length) &&
    spec.requiredCols.all (fun c => decide (c.name ∈ header)) &&
    fields.all (fun r => spec.requiredCols.all (fun c => cellCoerces c header r)) &&
    fields.all (fun r => spec.requiredCols.all (fun c => cellInRange c header r)) &&
    spec.uniqueCols.all (fun k => decide (fields.filterMap (fun r => getCell header r k)).Nodup)

/-- The OTU table satisfies its positional FormatSpec: leading SampleID column,
uniform row width, non-negative integer counts, unique SampleIDs. -/
def otuWellFormed (lines : List String) : Bool :=
  match headerAndBody lines with
  | [] => false
  | h :: body =>
    let header := splitTab h
    let fields := body.map splitTab
    header.headD "" == "SampleID" &&
    fields.all (fun r => r.length == header.length) &&
    fields.all (fun r => !otuRowBad r) &&
    decide (fields.map (fun r => r.headD "")).Nodup

/-- The FASTA file satisfies its FormatSpec: unique identifiers, sequences over
the accepted alphabet. -/
def fastaWellFormed (lines : List String) : Bool :=
  decide (seqKeys (fastaRecords lines)).Nodup &&
  (fastaRecords lines).all (fun r => validSeqString r.seq)

def subsetB (a b : List String) : Bool := a.all (fun x => decide (x ∈ b))

/-- Full identifier consistency across the five parsed artifacts: SampleIDs
agree in both directions between OTU table and metadata, every OTU column has
a taxonomy row and a sequence, every taxonomy species has taxa metadata, and
every sequence is used by some OTU column. -/
def idsConsistent (m o t a : ParsedTable) (s : List (String × String)) : Bool :=
  subsetB (otuSampleIDs o) (metaSampleIDs m) &&
  subsetB (metaSampleIDs m) (otuSampleIDs o) &&
  subsetB (otuHeaderIDs o) (taxOTUs t) &&
  subsetB (otuHeaderIDs o) (seqSetKeys s) &&
  subsetB (taxSpecies t) (taxaMetaSpecies a) &&
  subsetB (seqSetKeys s) (otuHeaderIDs o)

/-- A well-formed five-file project set: all files present, each satisfying its
FormatSpec, with fully consistent identifiers across files. -/
def wellFormedFS (fs : RawFileSet) : Bool :=
  match fs.metadata, fs.otuTable, fs.taxTable, fs.taxaMetadata, fs.sequences with
  | some m, some o, some t, some a, some s =>
    tableWellFormed metadataSpec m && otuWellFormed o && tableWellFormed taxTableSpec t &&
    tableWellFormed taxaMetadataSpec a && fastaWellFormed s &&
    idsConsistent (parseTable Role.metadata m).1 (parseTable Role.otuTable o).1
      (parseTable Role.taxTable t).1 (parseTable Role.taxaMetadata a).1 (parseFasta s).1
  | _, _, _, _, _ => false

/-- The fixed rank of each cross-reference check type in the report order. -/
def crossRank : IssueKind → Nat
| IssueKind.MissingArtifact => 0
| IssueKind.OrphanSampleID => 1
| IssueKind.OrphanOTU => 2
| IssueKind.MissingSequenceForOTU => 3
| IssueKind.UnmetadatedSpecies => 4
| IssueKind.UnusedSequence => 5
| _ => 6

/- ### Frontend: ProjectSummary component (ProjectSummary.jsx) -/

/-- The state hooks of the ProjectSummary component (users, selectedUser,
projects, selectedProject, projectData, loading, error). -/
structure ProjectSummaryState where
  users : List String
  selectedUser : String
  projects : List String
  selectedProject : String
  projectData : Option String
  loading : Bool
  displayError : Option String
deriving DecidableEq

/-- ProjectSummary.jsx handleUserChange: sets selectedUser to the given id and
in the same handler resets selectedProject to the empty string and projectData
to null. -/
def handleUserChange (userId : String) (s : ProjectSummaryState) : ProjectSummaryState :=
  { s with selectedUser := userId, selectedProject := "", projectData := none }

/- ### Frontend: CloudTest component (testConnection) -/

structure HealthResponse where
  status : String
deriving DecidableEq

/-- The status values the CloudTest component can end in. -/
inductive ConnStatus
| testing
| success
| warning
| error
deriving DecidableEq

/-- CloudTest testConnection, as a function of the outcomes of the three
requests (none models a thrown request).  Mirrors the nested try/catch chain:
a failed health request or a non-healthy health status ends in error; a failed
users fetch after a healthy check ends in warning; a successful users fetch
sets success, which a subsequent failed projects fetch (attempted only when
the users list is non-empty) downgrades to warning. -/
def testConnection (health : Option HealthResponse) (usersR : Option (List String))
    (projectsR : Option String) : ConnStatus :=
  match health with
  | none => ConnStatus.error
  | some h =>
    if h.status = "healthy" then
      match usersR with
      | none => ConnStatus.warning
      | some users =>
        if 0 < users.length then
          match projectsR with
          | none => ConnStatus.warning
          | some _ => ConnStatus.success
        else ConnStatus.success
    else ConnStatus.error

/- ### Lemmas: deduplication -/

theorem mem_firstDedupAux (x : String) :
    ∀ (l seen : List String), x ∈ firstDedupAux l seen ↔ x ∈ l ∧ x ∉ seen := by
  intro l
  induction l with
  | nil => intro seen; simp [firstDedupAux]
  | cons a as ih =>
    intro seen
    by_cases h : a ∈ seen
    · rw [firstDedupAux, if_pos h, ih]
      constructor
      · rintro ⟨hx, hns⟩; exact ⟨List.mem_cons_of_mem a hx, hns⟩
      · rintro ⟨hx, hns⟩
        rcases List.mem_cons.mp hx with hx | hx
        · subst hx; exact absurd h hns
        · exact ⟨hx, hns⟩
    · rw [firstDedupAux, if_neg h]
      constructor
      · intro hx
        rcases List.mem_cons.mp hx with hx | hx
        · subst hx; exact ⟨List.mem_cons_self _ _, h⟩
        · rcases (ih (a :: seen)).mp hx with ⟨h1, h2⟩
          refine ⟨List.mem_cons_of_mem a h1, fun hc => h2 (List.mem_cons_of_mem a hc)⟩
      · rintro ⟨hx, hns⟩
        rcases List.mem_cons.mp hx with hx | hx
        · subst hx; exact List.mem_cons_self x _
        · by_cases hxa : x = a
          · subst hxa; exact List.mem_cons_self x _
          · exact List.mem_cons_of_mem _ ((ih (a :: seen)).mpr
              ⟨hx, fun hc => (List.mem_cons.mp hc).elim hxa hns⟩)

theorem mem_firstDedup (x : String) (l : List String) : x ∈ firstDedup l ↔ x ∈ l := by
  rw [firstDedup, mem_firstDedupAux]
  simp

theorem nodup_firstDedupAux : ∀ (l seen : List String), (firstDedupAux l seen).Nodup := by
  intro l
  induction l with
  | nil => intro seen; simp [firstDedupAux]
  | cons a as ih =>
    intro seen
    by_cases h : a ∈ seen
    · rw [firstDedupAux, if_pos h]; exact ih seen
    · rw [firstDedupAux, if_neg h]
      refine List.Nodup.cons ?_ (ih (a :: seen))
      intro hc
      rcases (mem_firstDedupAux a as (a :: seen)).mp hc with ⟨_, h2⟩
      exact h2 (List.mem_cons_self a seen)

theorem nodup_firstDedup (l : List String) : (firstDedup l).Nodup := nodup_firstDedupAux l []

theorem firstDedup_perm {l m : List String} (h : l.Perm m) :
    (firstDedup l).Perm (firstDedup m) := by
  apply List.perm_of_nodup_nodup_toFinset_eq (nodup_firstDedup l) (nodup_firstDedup m)
  ext x
  simp [List.mem_toFinset, mem_firstDedup, h.mem_iff]

theorem count_firstDedup_of_mem {x : String} {l : List String} (h : x ∈ l) :
    (firstDedup l).count x = 1 :=
  List.count_eq_one_of_mem (nodup_firstDedup l) ((mem_firstDedup x l).mpr h)

/- ### Lemmas: sequence-set keys -/

theorem seqSetKeys_buildSeqSetAux :
    ∀ (recs : List FastaRecord) (seen : List String),
      seqSetKeys (buildSeqSetAux recs seen) = firstDedupAux (seqKeys recs) seen := by
  intro recs
  induction recs with
  | nil => intro seen; simp [buildSeqSetAux, seqKeys, firstDedupAux, seqSetKeys]
  | cons r rs ih =>
    intro seen
    by_cases h : r.id ∈ seen
    · rw [buildSeqSetAux, if_pos h]
      show seqSetKeys (buildSeqSetAux rs seen) = firstDedupAux (r.id :: seqKeys rs) seen
      rw [firstDedupAux, if_pos h, ih]
    · rw [buildSeqSetAux, if_neg h]
      show r.id :: seqSetKeys (buildSeqSetAux rs (r.id :: seen))
        = firstDedupAux (r.id :: seqKeys rs) seen
      rw [firstDedupAux, if_neg h, ih]

theorem seqSetKeys_buildSeqSet (recs : List FastaRecord) :
    seqSetKeys (buildSeqSet recs) = firstDedup (seqKeys recs) :=
  seqSetKeys_buildSeqSetAux recs []

theorem mem_seqSetKeys (x : String) (recs : List FastaRecord) :
    x ∈ seqSetKeys (buildSeqSet recs) ↔ x ∈ seqKeys recs := by
  rw [seqSetKeys_buildSeqSet, mem_firstDedup]

/- ### Lemmas: shapes of the issues each stage can emit -/

theorem mem_capIssues {role : Role} {l : List ValidationIssue} {i : ValidationIssue}
    (h : i ∈ capIssues role l) :
    i ∈ l ∨ i = mkIssue Severity.error role IssueKind.TypeMismatch "further instances omitted" := by
  unfold capIssues at h
  split at h
  · exact Or.inl h
  · rcases List.mem_append.mp h with h | h
    · exact Or.inl (List.mem_of_mem_take h)
    · simp at h
      exact Or.inr h

theorem shape_parseTable {role : Role} {lines : List String} {i : ValidationIssue}
    (h : i ∈ (parseTable role lines).2) : i.kind = IssueKind.MalformedRow ∧ i.role = role := by
  rcases hhb : headerAndBody lines with _ | ⟨hd, body⟩ <;> simp [parseTable, hhb, mkIssue] at h
  · subst h; exact ⟨rfl, rfl⟩
  · rcases h with ⟨r, -, rfl⟩; exact ⟨rfl, rfl⟩

theorem shape_fastaIssues {recs : List FastaRecord} {i : ValidationIssue}
    (h : i ∈ fastaIssues recs) :
    (i.severity = Severity.fatal ∧ i.kind = IssueKind.DuplicateSequenceID)
    ∨ (i.severity = Severity.error ∧ i.kind = IssueKind.InvalidSequenceCharacter) := by
  unfold fastaIssues at h
  rcases List.mem_append.mp h with h | h
  · rcases List.mem_map.mp h with ⟨x, -, rfl⟩; exact Or.inl ⟨rfl, rfl⟩
  · rcases List.mem_map.mp h with ⟨x, -, rfl⟩; exact Or.inr ⟨rfl, rfl⟩

theorem shape_typeIssuesRaw {role : Role} {spec : FormatSpec} {t : ParsedTable}
    {i : ValidationIssue} (h : i ∈ typeIssuesRaw role spec t) :
    i.severity = Severity.error ∧ i.kind = IssueKind.TypeMismatch ∧ i.role = role := by
  unfold typeIssuesRaw at h
  rcases List.mem_flatMap.mp h with ⟨c, -, hc⟩
  rcases List.mem_map.mp hc with ⟨r, -, rfl⟩
  exact ⟨rfl, rfl, rfl⟩

theorem shape_typeIssues {role : Role} {spec : FormatSpec} {t : ParsedTable}
    {i : ValidationIssue} (h : i ∈ typeIssues role spec t) :
    i.severity = Severity.error ∧ i.kind = IssueKind.TypeMismatch ∧ i.role = role := by
  rcases mem_capIssues h with h | rfl
  · exact shape_typeIssuesRaw h
  · exact ⟨rfl, rfl, rfl⟩

theorem shape_rangeIssues {role : Role} {spec : FormatSpec} {t : ParsedTable}
    {i : ValidationIssue} (h : i ∈ rangeIssues role spec t) :
    i.severity = Severity.error ∧ i.role = role
    ∧ (i.kind = IssueKind.OutOfRange ∨ i.kind = IssueKind.InvalidEnum) := by
  unfold rangeIssues at h
  rcases List.mem_flatMap.mp h with ⟨c, -, hc⟩
  rcases List.mem_map.mp hc with ⟨r, -, rfl⟩
  refine ⟨rfl, rfl, ?_⟩
  cases c.vcheck <;> simp [mkIssue, checkKindOf]

theorem shape_missingColIssues {role : Role} {spec : FormatSpec} {t : ParsedTable}
    {i : ValidationIssue} (h : i ∈ missingColIssues role spec t) :
    i.severity = Severity.fatal ∧ i.kind = IssueKind.MissingColumn ∧ i.role = role := by
  unfold missingColIssues at h
  rcases List.mem_map.mp h with ⟨c, -, rfl⟩
  exact ⟨rfl, rfl, rfl⟩

theorem shape_dupKeyIssues {role : Role} {spec : FormatSpec} {t : ParsedTable}
    {i : ValidationIssue} (h : i ∈ dupKeyIssues role spec t) :
    i.severity = Severity.error ∧ i.kind = IssueKind.DuplicateKey ∧ i.role = role := by
  unfold dupKeyIssues at h
  rcases List.mem_flatMap.mp h with ⟨k, -, hk⟩
  split at hk
  · rcases List.mem_map.mp hk with ⟨v, -, rfl⟩; exact ⟨rfl, rfl, rfl⟩
  · simp at hk

theorem shape_unexpectedColIssues {role : Role} {spec : FormatSpec} {t : ParsedTable}
    {i : ValidationIssue} (h : i ∈ unexpectedColIssues role spec t) :
    i.severity = Severity.warning ∧ i.kind = IssueKind.UnexpectedColumn ∧ i.role = role := by
  unfold unexpectedColIssues at h
  rcases List.mem_map.mp h with ⟨c, -, rfl⟩
  exact ⟨rfl, rfl, rfl⟩

theorem shape_checkTable {role : Role} {spec : FormatSpec} {t : ParsedTable}
    {i : ValidationIssue} (h : i ∈ checkTable role spec t) :
    i.role = role
    ∧ (i.kind = IssueKind.MissingColumn ∨ i.kind = IssueKind.TypeMismatch
       ∨ i.kind = IssueKind.OutOfRange ∨ i.kind = IssueKind.InvalidEnum
       ∨ i.kind = IssueKind.DuplicateKey ∨ i.kind = IssueKind.UnexpectedColumn) := by
  unfold checkTable at h
  rcases List.mem_append.mp h with h | h
  rotate_left
  · rcases shape_unexpectedColIssues h with ⟨-, h2, h3⟩; exact ⟨h3, by tauto⟩
  rcases List.mem_append.mp h with h | h
  rotate_left
  · rcases shape_dupKeyIssues h with ⟨-, h2, h3⟩; exact ⟨h3, by tauto⟩
  rcases List.mem_append.mp h with h | h
  rotate_left
  · rcases shape_rangeIssues h with ⟨-, h3, h2⟩; exact ⟨h3, by tauto⟩
  rcases List.mem_append.mp h with h | h
  · rcases shape_missingColIssues h with ⟨-, h2, h3⟩; exact ⟨h3, by tauto⟩
  · rcases shape_typeIssues h with ⟨-, h2, h3⟩; exact ⟨h3, by tauto⟩

theorem shape_otuTypeRaw {t : ParsedTable} {i : ValidationIssue} (h : i ∈ otuTypeRaw t) :
    i.severity = Severity.error ∧ i.kind = IssueKind.TypeMismatch ∧ i.role = Role.otuTable := by
  unfold otuTypeRaw at h
  rcases List.mem_map.mp h with ⟨r, -, rfl⟩
  exact ⟨rfl, rfl, rfl⟩

theorem shape_checkOtuTable {t : ParsedTable} {i : ValidationIssue} (h : i ∈ checkOtuTable t) :
    i.role = Role.otuTable
    ∧ (i.kind = IssueKind.MissingColumn ∨ i.kind = IssueKind.TypeMismatch
       ∨ i.kind = IssueKind.DuplicateKey) := by
  unfold checkOtuTable at h
  rcases List.mem_append.mp h with h | h
  rotate_left
  · rcases List.mem_map.mp h with ⟨v, -, rfl⟩; exact ⟨rfl, by tauto⟩
  rcases List.mem_append.mp h with h | h
  · split at h
    · simp at h
    · simp at h; subst h; exact ⟨rfl, by tauto⟩
  · rcases mem_capIssues h with h | rfl
    · rcases shape_otuTypeRaw h with ⟨-, h2, h3⟩; exact ⟨h3, by tauto⟩
    · exact ⟨rfl, by tauto⟩

theorem shape_orphanIssues {sev : Severity} {role : Role} {kind : IssueKind}
    {src target : List String} {i : ValidationIssue}
    (h : i ∈ orphanIssues sev role kind src target) :
    i.severity = sev ∧ i.role = role ∧ i.kind = kind := by
  unfold orphanIssues at h
  rcases List.mem_map.mp h with ⟨x, -, rfl⟩
  exact ⟨rfl, rfl, rfl⟩

theorem mem_pairCheck {α β : Type} {a : Option α} {b : Option β}
    {f : α → β → List ValidationIssue} {i : ValidationIssue} (h : i ∈ pairCheck a b f) :
    ∃ x y, a = some x ∧ b = some y ∧ i ∈ f x y := by
  cases a with
  | none => simp [pairCheck] at h
  | some x =>
    cases b with
    | none => simp [pairCheck] at h
    | some y => exact ⟨x, y, rfl, rfl, h⟩

theorem shape_crossIssues {a : Artifacts} {i : ValidationIssue} (h : i ∈ crossIssues a) :
    i.kind = IssueKind.OrphanSampleID ∨ i.kind = IssueKind.OrphanOTU
    ∨ i.kind = IssueKind.MissingSequenceForOTU ∨ i.kind = IssueKind.UnmetadatedSpecies
    ∨ i.kind = IssueKind.UnusedSequence := by
  unfold crossIssues at h
  rcases List.mem_append.mp h with h | h
  rotate_left
  · rcases mem_pairCheck h with ⟨x, y, -, -, hf⟩
    rcases shape_orphanIssues hf with ⟨-, -, h3⟩; tauto
  rcases List.mem_append.mp h with h | h
  rotate_left
  · rcases mem_pairCheck h with ⟨x, y, -, -, hf⟩
    rcases shape_orphanIssues hf with ⟨-, -, h3⟩; tauto
  rcases List.mem_append.mp h with h | h
  rotate_left
  · rcases mem_pairCheck h with ⟨x, y, -, -, hf⟩
    rcases shape_orphanIssues hf with ⟨-, -, h3⟩; tauto
  rcases List.mem_append.mp h with h | h
  rotate_left
  · rcases mem_pairCheck h with ⟨x, y, -, -, hf⟩
    rcases shape_orphanIssues hf with ⟨-, -, h3⟩; tauto
  rcases List.mem_append.mp h with h | h <;>
    · rcases mem_pairCheck h with ⟨x, y, -, -, hf⟩
      rcases shape_orphanIssues hf with ⟨-, -, h3⟩; tauto

theorem shape_missingFor {role : Role} {o : Option (List String)} {i : ValidationIssue}
    (h : i ∈ missingFor role o) :
    i.severity = Severity.fatal ∧ i.kind = IssueKind.MissingArtifact := by
  cases o with
  | none => simp [missingFor, mkIssue] at h; subst h; exact ⟨rfl, rfl⟩
  | some v => simp [missingFor] at h

theorem shape_missingIssues {fs : RawFileSet} {i : ValidationIssue} (h : i ∈ missingIssues fs) :
    i.severity = Severity.fatal ∧ i.kind = IssueKind.MissingArtifact := by
  unfold missingIssues at h
  rcases List.mem_append.mp h with h | h
  rotate_left
  · exact shape_missingFor h
  rcases List.mem_append.mp h with h | h
  rotate_left
  · exact shape_missingFor h
  rcases List.mem_append.mp h with h | h
  rotate_left
  · exact shape_missingFor h
  rcases List.mem_append.mp h with h | h <;> exact shape_missingFor h

/- ### Claim C2 -/

/-- C2: for every validation run, the report's derived boolean isAcceptable is
true if and only if no issue in the report has severity fatal or error; in
particular a report whose issues are all warnings has isAcceptable = true. -/
theorem C2_isAcceptable_iff_no_fatal_error (fs : RawFileSet) :
    ((validate fs).isAcceptable = true ↔
      ∀ i ∈ (validate fs).issues,
        i.severity ≠ Severity.fatal ∧ i.severity ≠ Severity.error)
    ∧ ((∀ i ∈ (validate fs).issues, i.severity = Severity.warning) →
        (validate fs).isAcceptable = true) := by
  have key : (validate fs).isAcceptable = true ↔
      ∀ i ∈ (validate fs).issues,
        i.severity ≠ Severity.fatal ∧ i.severity ≠ Severity.error := by
    unfold ValidationReport.isAcceptable
    simp [not_or]
  refine ⟨key, fun hw => key.mpr (fun i hi => ?_)⟩
  rw [hw i hi]
  exact ⟨by simp, by simp⟩

/-- Witness for C2 at a concrete run (the empty file set). -/
theorem C2_isAcceptable_iff_no_fatal_error_witness :
    (validate ⟨none, none, none, none, none⟩).isAcceptable = true ↔
      ∀ i ∈ (validate ⟨none, none, none, none, none⟩).issues,
        i.severity ≠ Severity.fatal ∧ i.severity ≠ Severity.error :=
  (C2_isAcceptable_iff_no_fatal_error ⟨none, none, none, none, none⟩).1

/- ### Claim C9 -/

/-- C9: in the ProjectSummary component, handleUserChange(userId) sets
selectedUser to userId and simultaneously resets selectedProject to the empty
string and projectData to null, leaving the remaining state fields unchanged,
so a previous user's project data is never left displayed. -/
theorem C9_handleUserChange_resets (s : ProjectSummaryState) (userId : String) :
    (handleUserChange userId s).selectedUser = userId
    ∧ (handleUserChange userId s).selectedProject = ""
    ∧ (handleUserChange userId s).projectData = none
    ∧ (handleUserChange userId s).users = s.users
    ∧ (handleUserChange userId s).projects = s.projects
    ∧ (handleUserChange userId s).loading = s.loading
    ∧ (handleUserChange userId s).displayError = s.displayError := by
  simp [handleUserChange]

/- ### Claim C10 -/

/-- C10: CloudTest's testConnection ends in success only when the health check
returned "healthy" and the users fetch succeeded; a failed health request or a
non-healthy status ends in error; a failed users fetch after a healthy check,
or a failed projects fetch after a successful users fetch, ends in warning. -/
theorem C10_testConnection_status (health : Option HealthResponse)
    (usersR : Option (List String)) (projectsR : Option String) :
    (testConnection health usersR projectsR = ConnStatus.success →
      (∃ h, health = some h ∧ h.status = "healthy") ∧ usersR.isSome = true)
    ∧ (health = none → testConnection health usersR projectsR = ConnStatus.error)
    ∧ (∀ h, health = some h → h.status ≠ "healthy" →
        testConnection health usersR projectsR = ConnStatus.error)
    ∧ (∀ h, health = some h → h.status = "healthy" → usersR = none →
        testConnection health usersR projectsR = ConnStatus.warning)
    ∧ (∀ h us, health = some h → h.status = "healthy" → usersR = some us →
        0 < us.length → projectsR = none →
        testConnection health usersR projectsR = ConnStatus.warning) := by
  cases health with
  | none => simp [testConnection]
  | some h =>
    by_cases hh : h.status = "healthy"
    · cases usersR with
      | none => simp [testConnection, hh]
      | some us =>
        by_cases hlen : 0 < us.length
        · cases projectsR with
          | none => simp [testConnection, hh, hlen]
          | some p => simp [testConnection, hh, hlen]
        · simp [testConnection, hh, hlen]
    · simp [testConnection, hh]
      intro h1 us he hs
      exact absurd hs (he ▸ hh)

/-- Witness for C10: a healthy backend whose users fetch throws ends in
warning. -/
theorem C10_testConnection_status_witness :
    testConnection (some ⟨"healthy"⟩) none none = ConnStatus.warning :=
  (C10_testConnection_status (some ⟨"healthy"⟩) none none).2.2.2.1 ⟨"healthy"⟩ rfl rfl rfl

/- ### Claim C7 -/

/-- C7: every row in a ParsedTable produced by the tabular parser has exactly
the header's column count; a line whose field count differs from the header
width is recorded as a MalformedRow issue and excluded from the table, while
all remaining lines are still parsed. -/
theorem C7_parsedTable_row_invariant (role : Role) (lines : List String) :
    (∀ r ∈ (parseTable role lines).1.rows, r.length = (parseTable role lines).1.header.length)
    ∧ (∀ h body, headerAndBody lines = h :: body →
        (parseTable role lines).1.rows
          = (body.map splitTab).filter (fun r => r.length == (splitTab h).length)
        ∧ ((parseTable role lines).2.filter (fun i => i.kind == IssueKind.MalformedRow)).length
            = ((body.map splitTab).filter (fun r => !(r.length == (splitTab h).length))).length) := by
  constructor
  · intro r hr
    rcases hhb : headerAndBody lines with _ | ⟨hd, body⟩
    · simp [parseTable, hhb] at hr
    · simp only [parseTable, hhb] at hr ⊢
      simpa using (List.mem_filter.mp hr).2
  · intro h body hhb
    constructor
    · simp only [parseTable, hhb]
    · simp only [parseTable, hhb]
      rw [List.filter_eq_self.mpr, List.length_map]
      intro i hi
      rcases List.mem_map.mp hi with ⟨r, -, rfl⟩
      rfl

/-- Witness for C7 at a concrete file with one malformed line. -/
theorem C7_parsedTable_row_invariant_witness :
    (parseTable Role.metadata ["a\tb", "1\t2", "bad"]).1.rows
      = ((["1\t2", "bad"].map splitTab).filter
          (fun r => r.length == (splitTab "a\tb").length)) :=
  ((C7_parsedTable_row_invariant Role.metadata ["a\tb", "1\t2", "bad"]).2
    "a\tb" ["1\t2", "bad"] (by decide)).1

/- ### Claim C3 -/

theorem filter_kind_nil {l : List ValidationIssue} {k : IssueKind}
    (h : ∀ i ∈ l, i.kind ≠ k) : l.filter (fun i => i.kind == k) = [] := by
  rw [List.filter_eq_nil_iff]
  intro i hi
  simp [h i hi]

theorem filter_kind_self {l : List ValidationIssue} {k : IssueKind}
    (h : ∀ i ∈ l, i.kind = k) : l.filter (fun i => i.kind == k) = l := by
  rw [List.filter_eq_self]
  intro i hi
  simp [h i hi]

theorem parseIssuesOf_kind {role : Role} {o : Option (List String)} {i : ValidationIssue}
    (h : i ∈ parseIssuesOf role o) : i.kind = IssueKind.MalformedRow ∧ i.role = role := by
  cases o with
  | none => simp [parseIssuesOf] at h
  | some ls => exact shape_parseTable h

theorem seqIssuesOf_kind {o : Option (List String)} {i : ValidationIssue}
    (h : i ∈ seqIssuesOf o) :
    i.kind = IssueKind.DuplicateSequenceID ∨ i.kind = IssueKind.InvalidSequenceCharacter := by
  cases o with
  | none => simp [seqIssuesOf] at h
  | some ls =>
    rcases shape_fastaIssues (h : i ∈ fastaIssues (fastaRecords ls)) with ⟨-, h2⟩ | ⟨-, h2⟩
    · exact Or.inl h2
    · exact Or.inr h2

theorem mem_optCheck {α : Type} {f : α → List ValidationIssue} {o : Option α}
    {i : ValidationIssue} (h : i ∈ optCheck f o) : ∃ x, o = some x ∧ i ∈ f x := by
  cases o with
  | none => simp [optCheck] at h
  | some x => exact ⟨x, rfl, h⟩

/-- In the full report, the MissingArtifact issues are exactly the
missing-file issues. -/
theorem filter_missingArtifact (fs : RawFileSet) :
    (validateIssues fs).filter (fun i => i.kind == IssueKind.MissingArtifact)
      = missingIssues fs := by
  unfold validateIssues
  repeat rw [List.filter_append]
  rw [filter_kind_nil (fun i hi => by rw [(parseIssuesOf_kind hi).1]; decide),
      filter_kind_nil (fun i hi => by rw [(parseIssuesOf_kind hi).1]; decide),
      filter_kind_nil (fun i hi => by rw [(parseIssuesOf_kind hi).1]; decide),
      filter_kind_nil (fun i hi => by rw [(parseIssuesOf_kind hi).1]; decide),
      filter_kind_nil (fun i hi => by
        rcases seqIssuesOf_kind hi with h2 | h2 <;> rw [h2] <;> decide),
      filter_kind_nil (fun i hi => by
        rcases mem_optCheck hi with ⟨x, -, hx⟩
        rcases shape_checkTable hx with ⟨-, h2⟩
        rcases h2 with h2 | h2 | h2 | h2 | h2 | h2 <;> rw [h2] <;> decide),
      filter_kind_nil (fun i hi => by
        rcases mem_optCheck hi with ⟨x, -, hx⟩
        rcases shape_checkOtuTable hx with ⟨-, h2⟩
        rcases h2 with h2 | h2 | h2 <;> rw [h2] <;> decide),
      filter_kind_nil (fun i hi => by
        rcases mem_optCheck hi with ⟨x, -, hx⟩
        rcases shape_checkTable hx with ⟨-, h2⟩
        rcases h2 with h2 | h2 | h2 | h2 | h2 | h2 <;> rw [h2] <;> decide),
      filter_kind_nil (fun i hi => by
        rcases mem_optCheck hi with ⟨x, -, hx⟩
        rcases shape_checkTable hx with ⟨-, h2⟩
        rcases h2 with h2 | h2 | h2 | h2 | h2 | h2 <;> rw [h2] <;> decide),
      filter_kind_self (fun i hi => (shape_missingIssues hi).2),
      filter_kind_nil (fun i hi => by
        rcases shape_crossIssues hi with h2 | h2 | h2 | h2 | h2 <;> rw [h2] <;> decide)]
  simp

theorem missingFor_isSome {role : Role} {o : Option (List String)} (h : o.isSome = true) :
    missingFor role o = [] := by
  cases o with
  | none => simp at h
  | some v => rfl

theorem mem_validate_of_mem_missing {fs : RawFileSet} {i : ValidationIssue}
    (h : i ∈ missingIssues fs) : i ∈ validateIssues fs := by
  unfold validateIssues
  simp only [List.mem_append]
  tauto

theorem isAcceptable_false_of_fatal {fs : RawFileSet} {i : ValidationIssue}
    (hi : i ∈ (validate fs).issues) (hsev : i.severity = Severity.fatal) :
    (validate fs).isAcceptable = false := by
  simp only [ValidationReport.isAcceptable, Bool.not_eq_false']
  exact List.any_eq_true.mpr ⟨i, hi, by simp [hsev]⟩

/-- C3: when exactly one of the five required files is missing, the report
contains exactly one MissingArtifact fatal issue naming that file, the report
is not acceptable, and the run still completes with a full report. -/
theorem C3_one_missing_file (fs : RawFileSet) (r : Role)
    (hmiss : fs.file r = none)
    (hothers : ∀ q : Role, q ≠ r → (fs.file q).isSome = true) :
    (validate fs).issues.filter (fun i => i.kind == IssueKind.MissingArtifact)
      = [mkIssue Severity.fatal r IssueKind.MissingArtifact (fileNameOf r)]
    ∧ (validate fs).isAcceptable = false := by
  have hmi : missingIssues fs
      = [mkIssue Severity.fatal r IssueKind.MissingArtifact (fileNameOf r)] := by
    cases r with
    | metadata =>
      simp only [RawFileSet.file] at hmiss
      rw [missingIssues, hmiss,
          missingFor_isSome (show (fs.otuTable).isSome = true from hothers Role.otuTable (by decide)),
          missingFor_isSome (show (fs.taxTable).isSome = true from hothers Role.taxTable (by decide)),
          missingFor_isSome (show (fs.taxaMetadata).isSome = true from hothers Role.taxaMetadata (by decide)),
          missingFor_isSome (show (fs.sequences).isSome = true from hothers Role.sequences (by decide))]
      rfl
    | otuTable =>
      simp only [RawFileSet.file] at hmiss
      rw [missingIssues, hmiss,
          missingFor_isSome (show (fs.metadata).isSome = true from hothers Role.metadata (by decide)),
          missingFor_isSome (show (fs.taxTable).isSome = true from hothers Role.taxTable (by decide)),
          missingFor_isSome (show (fs.taxaMetadata).isSome = true from hothers Role.taxaMetadata (by decide)),
          missingFor_isSome (show (fs.sequences).isSome = true from hothers Role.sequences (by decide))]
      rfl
    | taxTable =>
      simp only [RawFileSet.file] at hmiss
      rw [missingIssues, hmiss,
          missingFor_isSome (show (fs.metadata).isSome = true from hothers Role.metadata (by decide)),
          missingFor_isSome (show (fs.otuTable).isSome = true from hothers Role.otuTable (by decide)),
          missingFor_isSome (show (fs.taxaMetadata).isSome = true from hothers Role.taxaMetadata (by decide)),
          missingFor_isSome (show (fs.sequences).isSome = true from hothers Role.sequences (by decide))]
      rfl
    | taxaMetadata =>
      simp only [RawFileSet.file] at hmiss
      rw [missingIssues, hmiss,
          missingFor_isSome (show (fs.metadata).isSome = true from hothers Role.metadata (by decide)),
          missingFor_isSome (show (fs.otuTable).isSome = true from hothers Role.otuTable (by decide)),
          missingFor_isSome (show (fs.taxTable).isSome = true from hothers Role.taxTable (by decide)),
          missingFor_isSome (show (fs.sequences).isSome = true from hothers Role.sequences (by decide))]
      rfl
    | sequences =>
      simp only [RawFileSet.file] at hmiss
      rw [missingIssues, hmiss,
          missingFor_isSome (show (fs.metadata).isSome = true from hothers Role.metadata (by decide)),
          missingFor_isSome (show (fs.otuTable).isSome = true from hothers Role.otuTable (by decide)),
          missingFor_isSome (show (fs.taxTable).isSome = true from hothers Role.taxTable (by decide)),
          missingFor_isSome (show (fs.taxaMetadata).isSome = true from hothers Role.taxaMetadata (by decide))]
      rfl
  constructor
  · show (validateIssues fs).filter (fun i => i.kind == IssueKind.MissingArtifact)
      = [mkIssue Severity.fatal r IssueKind.MissingArtifact (fileNameOf r)]
    rw [filter_missingArtifact fs, hmi]
  · refine isAcceptable_false_of_fatal
      (i := mkIssue Severity.fatal r IssueKind.MissingArtifact (fileNameOf r)) ?_ rfl
    exact mem_validate_of_mem_missing (by rw [hmi]; exact List.mem_singleton.mpr rfl)

/-- Witness for C3: a file set whose metadata file alone is missing. -/
theorem C3_one_missing_file_witness :
    (validate ⟨none, some [], some [], some [], some []⟩).issues.filter
        (fun i => i.kind == IssueKind.MissingArtifact)
      = [mkIssue Severity.fatal Role.metadata IssueKind.MissingArtifact "metadata.txt"]
    ∧ (validate ⟨none, some [], some [], some [], some []⟩).isAcceptable = false :=
  C3_one_missing_file ⟨none, some [], some [], some [], some []⟩ Role.metadata rfl
    (fun q hq => by cases q <;> first | rfl | exact absurd rfl hq)

/- ### Claim C5 -/

theorem filter_orphan_pairCheck_nil {α β : Type} (a : Option α) (b : Option β)
    (sev : Severity) (role : Role) (kind : IssueKind)
    (src : α → List String) (tgt : β → List String) {k2 : IssueKind} (hne : kind ≠ k2) :
    (pairCheck a b (fun x y => orphanIssues sev role kind (src x) (tgt y))).filter
        (fun i => i.kind == k2) = [] :=
  filter_kind_nil (fun i hi => by
    rcases mem_pairCheck hi with ⟨x, y, -, -, hf⟩
    rw [(shape_orphanIssues hf).2.2]
    exact hne)

/-- In the full report, the OrphanOTU issues are exactly the cross-reference
comparison of the OTU column headers against the taxonomy OTU rows. -/
theorem filter_orphanOTU (fs : RawFileSet) (ol tl : List String)
    (ho : fs.otuTable = some ol) (ht : fs.taxTable = some tl) :
    (validateIssues fs).filter (fun i => i.kind == IssueKind.OrphanOTU)
      = orphanIssues Severity.error Role.otuTable IssueKind.OrphanOTU
          (otuHeaderIDs (parseTable Role.otuTable ol).1)
          (taxOTUs (parseTable Role.taxTable tl).1) := by
  unfold validateIssues
  repeat rw [List.filter_append]
  rw [filter_kind_nil (fun i hi => by rw [(parseIssuesOf_kind hi).1]; decide),
      filter_kind_nil (fun i hi => by rw [(parseIssuesOf_kind hi).1]; decide),
      filter_kind_nil (fun i hi => by rw [(parseIssuesOf_kind hi).1]; decide),
      filter_kind_nil (fun i hi => by rw [(parseIssuesOf_kind hi).1]; decide),
      filter_kind_nil (fun i hi => by
        rcases seqIssuesOf_kind hi with h2 | h2 <;> rw [h2] <;> decide),
      filter_kind_nil (fun i hi => by
        rcases mem_optCheck hi with ⟨v, -, hv⟩
        rcases shape_checkTable hv with ⟨-, h2⟩
        rcases h2 with h2 | h2 | h2 | h2 | h2 | h2 <;> rw [h2] <;> decide),
      filter_kind_nil (fun i hi => by
        rcases mem_optCheck hi with ⟨v, -, hv⟩
        rcases shape_checkOtuTable hv with ⟨-, h2⟩
        rcases h2 with h2 | h2 | h2 <;> rw [h2] <;> decide),
      filter_kind_nil (fun i hi => by
        rcases mem_optCheck hi with ⟨v, -, hv⟩
        rcases shape_checkTable hv with ⟨-, h2⟩
        rcases h2 with h2 | h2 | h2 | h2 | h2 | h2 <;> rw [h2] <;> decide),
      filter_kind_nil (fun i hi => by
        rcases mem_optCheck hi with ⟨v, -, hv⟩
        rcases shape_checkTable hv with ⟨-, h2⟩
        rcases h2 with h2 | h2 | h2 | h2 | h2 | h2 <;> rw [h2] <;> decide),
      filter_kind_nil (fun i hi => by rw [(shape_missingIssues hi).2]; decide)]
  have hart : (artifactsOf fs).otu = some (parseTable Role.otuTable ol).1 := by
    simp [artifactsOf, parsedTableOf, ho]
  have hart2 : (artifactsOf fs).tax = some (parseTable Role.taxTable tl).1 := by
    simp [artifactsOf, parsedTableOf, ht]
  unfold crossIssues
  rw [hart, hart2]
  repeat rw [List.filter_append]
  rw [filter_orphan_pairCheck_nil _ _ _ _ IssueKind.OrphanSampleID _ _ (by decide),
      filter_orphan_pairCheck_nil _ _ _ _ IssueKind.OrphanSampleID _ _ (by decide),
      filter_orphan_pairCheck_nil _ _ _ _ IssueKind.MissingSequenceForOTU _ _ (by decide),
      filter_orphan_pairCheck_nil _ _ _ _ IssueKind.UnmetadatedSpecies _ _ (by decide),
      filter_orphan_pairCheck_nil _ _ _ _ IssueKind.UnusedSequence _ _ (by decide)]
  simp only [pairCheck]
  rw [filter_kind_self (fun i hi => (shape_orphanIssues hi).2.2)]
  simp

/-- C5: each OTU column header absent from the taxonomy table produces exactly
one OrphanOTU issue naming that identifier (one per violating identifier, not
per occurrence), and every OrphanOTU issue has severity error. -/
theorem C5_one_orphanOTU_per_identifier (fs : RawFileSet) (ol tl : List String) (x : String)
    (ho : fs.otuTable = some ol) (ht : fs.taxTable = some tl)
    (hx : x ∈ otuHeaderIDs (parseTable Role.otuTable ol).1)
    (hnx : x ∉ taxOTUs (parseTable Role.taxTable tl).1) :
    ((((validate fs).issues.filter (fun i => i.kind == IssueKind.OrphanOTU)).filter
        (fun i => i.ident == x)).length = 1)
    ∧ ∀ i ∈ (validate fs).issues, i.kind = IssueKind.OrphanOTU →
        i.severity = Severity.error := by
  have hfil := filter_orphanOTU fs ol tl ho ht
  constructor
  · show (((validateIssues fs).filter (fun i => i.kind == IssueKind.OrphanOTU)).filter
        (fun i => i.ident == x)).length = 1
    rw [hfil]
    unfold orphanIssues
    rw [List.filter_map]
    have hcomp : ((fun i : ValidationIssue => i.ident == x) ∘
        (mkIssue Severity.error Role.otuTable IssueKind.OrphanOTU))
        = fun v => v == x := rfl
    rw [hcomp, List.length_map, ← List.countP_eq_length_filter]
    have hnodup : ((firstDedup (otuHeaderIDs (parseTable Role.otuTable ol).1)).filter
        (fun v => !(decide (v ∈ taxOTUs (parseTable Role.taxTable tl).1)))).Nodup :=
      (nodup_firstDedup _).filter _
    have hmem : x ∈ (firstDedup (otuHeaderIDs (parseTable Role.otuTable ol).1)).filter
        (fun v => !(decide (v ∈ taxOTUs (parseTable Role.taxTable tl).1))) :=
      List.mem_filter.mpr ⟨(mem_firstDedup x _).mpr hx, by simp [hnx]⟩
    show List.count x _ = 1
    exact List.count_eq_one_of_mem hnodup hmem
  · intro i hi hk
    have hi2 : i ∈ (validateIssues fs).filter (fun i => i.kind == IssueKind.OrphanOTU) :=
      List.mem_filter.mpr ⟨hi, by simp [hk]⟩
    rw [hfil] at hi2
    exact (shape_orphanIssues hi2).1

/-- Witness for C5 (concrete scenario A): column header OTU_123 with no
matching taxonomy row yields exactly one OrphanOTU issue naming OTU_123. -/
theorem C5_one_orphanOTU_per_identifier_witness :
    (((validate ⟨none, some ["SampleID\tOTU_123", "S1\t4"],
        some ["OTU\tKingdom", "OTU_9\tPlantae"], none, none⟩).issues.filter
          (fun i => i.kind == IssueKind.OrphanOTU)).filter
        (fun i => i.ident == "OTU_123")).length = 1 :=
  (C5_one_orphanOTU_per_identifier
    ⟨none, some ["SampleID\tOTU_123", "S1\t4"],
      some ["OTU\tKingdom", "OTU_9\tPlantae"], none, none⟩
    ["SampleID\tOTU_123", "S1\t4"] ["OTU\tKingdom", "OTU_9\tPlantae"] "OTU_123"
    rfl rfl (by decide) (by decide)).1

/- ### Claim C6 -/

/-- C6: a repeated FASTA identifier yields a fatal DuplicateSequenceID issue
naming that identifier, and every identifier in the file (the duplicate
included) still reaches the SequenceSet consumed by the later checks — no
record is silently dropped and no abort occurs. -/
theorem C6_duplicate_sequence_id (fs : RawFileSet) (sl : List String) (sid : String)
    (hs : fs.sequences = some sl)
    (hdup : 2 ≤ (seqKeys (fastaRecords sl)).count sid) :
    mkIssue Severity.fatal Role.sequences IssueKind.DuplicateSequenceID sid
      ∈ (validate fs).issues
    ∧ (∀ j : String, j ∈ seqSetKeys (parseFasta sl).1 ↔ j ∈ seqKeys (fastaRecords sl)) := by
  constructor
  · have hmem : mkIssue Severity.fatal Role.sequences IssueKind.DuplicateSequenceID sid
        ∈ fastaIssues (fastaRecords sl) := by
      unfold fastaIssues
      apply List.mem_append_left
      apply List.mem_map.mpr
      refine ⟨sid, List.mem_filter.mpr ⟨(mem_firstDedup _ _).mpr ?_, by simpa using hdup⟩, rfl⟩
      exact List.count_pos_iff.mp (lt_of_lt_of_le (by norm_num) hdup)
    have hseq : mkIssue Severity.fatal Role.sequences IssueKind.DuplicateSequenceID sid
        ∈ seqIssuesOf fs.sequences := by
      rw [hs]
      exact hmem
    show _ ∈ validateIssues fs
    unfold validateIssues
    simp only [List.mem_append]
    tauto
  · intro j
    exact mem_seqSetKeys j (fastaRecords sl)

/-- Witness for C6 (concrete scenario B): two headers OTU_5; the duplicate is
reported fatally and OTU_7 is still parsed. -/
theorem C6_duplicate_sequence_id_witness :
    mkIssue Severity.fatal Role.sequences IssueKind.DuplicateSequenceID "OTU_5"
      ∈ (validate ⟨none, none, none, none,
          some [">OTU_5", "ACGT", ">OTU_5", "GGTT", ">OTU_7", "ACGT"]⟩).issues :=
  (C6_duplicate_sequence_id
    ⟨none, none, none, none, some [">OTU_5", "ACGT", ">OTU_5", "GGTT", ">OTU_7", "ACGT"]⟩
    [">OTU_5", "ACGT", ">OTU_5", "GGTT", ">OTU_7", "ACGT"] "OTU_5" rfl (by decide)).1

/- ### Claim C4 -/

theorem pairwise_rank_const {k : Nat} :
    ∀ {l : List ValidationIssue}, (∀ a ∈ l, crossRank a.kind = k) →
      l.Pairwise (fun x y => crossRank x.kind ≤ crossRank y.kind) := by
  intro l
  induction l with
  | nil => intro h; exact List.Pairwise.nil
  | cons a as ih =>
    intro h
    refine List.Pairwise.cons (fun b hb => ?_)
      (ih (fun b hb => h b (List.mem_cons_of_mem a hb)))
    rw [h a (List.mem_cons_self a as), h b (List.mem_cons_of_mem a hb)]

theorem pairwise_rank_append {l m : List ValidationIssue}
    (hl : l.Pairwise (fun x y => crossRank x.kind ≤ crossRank y.kind))
    (hm : m.Pairwise (fun x y => crossRank x.kind ≤ crossRank y.kind))
    (hb : ∀ x ∈ l, ∀ y ∈ m, crossRank x.kind ≤ crossRank y.kind) :
    (l ++ m).Pairwise (fun x y => crossRank x.kind ≤ crossRank y.kind) :=
  List.pairwise_append.mpr ⟨hl, hm, hb⟩

theorem kind_pairCheck_orphan {α β : Type} (o1 : Option α) (o2 : Option β)
    (sev : Severity) (role : Role) (kind : IssueKind)
    (src : α → List String) (tgt : β → List String) :
    ∀ i ∈ pairCheck o1 o2 (fun x y => orphanIssues sev role kind (src x) (tgt y)),
      i.kind = kind := by
  intro i hi
  rcases mem_pairCheck hi with ⟨x, y, -, -, hf⟩
  exact (shape_orphanIssues hf).2.2

/-- The cross-reference issues appear grouped by check type, in the fixed
check order. -/
theorem pairwise_crossIssues (a : Artifacts) :
    (crossIssues a).Pairwise (fun x y => crossRank x.kind ≤ crossRank y.kind) := by
  have h1 := kind_pairCheck_orphan a.otu a.meta Severity.error Role.otuTable
    IssueKind.OrphanSampleID otuSampleIDs metaSampleIDs
  have h2 := kind_pairCheck_orphan a.meta a.otu Severity.error Role.metadata
    IssueKind.OrphanSampleID metaSampleIDs otuSampleIDs
  have h3 := kind_pairCheck_orphan a.otu a.tax Severity.error Role.otuTable
    IssueKind.OrphanOTU otuHeaderIDs taxOTUs
  have h4 := kind_pairCheck_orphan a.otu a.seqs Severity.error Role.otuTable
    IssueKind.MissingSequenceForOTU otuHeaderIDs seqSetKeys
  have h5 := kind_pairCheck_orphan a.tax a.taxaMeta Severity.warning Role.taxTable
    IssueKind.UnmetadatedSpecies taxSpecies taxaMetaSpecies
  have h6 := kind_pairCheck_orphan a.seqs a.otu Severity.warning Role.sequences
    IssueKind.UnusedSequence seqSetKeys otuHeaderIDs
  unfold crossIssues
  refine pairwise_rank_append (pairwise_rank_append (pairwise_rank_append
    (pairwise_rank_append (pairwise_rank_append
      (pairwise_rank_const (k := 1) (fun i hi => by rw [h1 i hi]; rfl))
      (pairwise_rank_const (k := 1) (fun i hi => by rw [h2 i hi]; rfl))
      (fun x hx y hy => by rw [h1 x hx, h2 y hy]))
    (pairwise_rank_const (k := 2) (fun i hi => by rw [h3 i hi]; rfl))
    (fun x hx y hy => by
      rw [h3 y hy]
      rcases List.mem_append.mp hx with hx | hx
      · rw [h1 x hx]; decide
      · rw [h2 x hx]; decide))
    (pairwise_rank_const (k := 3) (fun i hi => by rw [h4 i hi]; rfl))
    (fun x hx y hy => by
      rw [h4 y hy]
      rcases List.mem_append.mp hx with hx | hx
      · rcases List.mem_append.mp hx with hx | hx
        · rw [h1 x hx]; decide
        · rw [h2 x hx]; decide
      · rw [h3 x hx]; decide))
    (pairwise_rank_const (k := 4) (fun i hi => by rw [h5 i hi]; rfl))
    (fun x hx y hy => by
      rw [h5 y hy]
      rcases List.mem_append.mp hx with hx | hx
      · rcases List.mem_append.mp hx with hx | hx
        · rcases List.mem_append.mp hx with hx | hx
          · rw [h1 x hx]; decide
          · rw [h2 x hx]; decide
        · rw [h3 x hx]; decide
      · rw [h4 x hx]; decide))
    (pairwise_rank_const (k := 5) (fun i hi => by rw [h6 i hi]; rfl))
    (fun x hx y hy => by
      rw [h6 y hy]
      rcases List.mem_append.mp hx with hx | hx
      · rcases List.mem_append.mp hx with hx | hx
        · rcases List.mem_append.mp hx with hx | hx
          · rcases List.mem_append.mp hx with hx | hx
            · rw [h1 x hx]; decide
            · rw [h2 x hx]; decide
          · rw [h3 x hx]; decide
        · rw [h4 x hx]; decide
      · rw [h5 x hx]; decide)

/-- C4: validate is a pure function, so identical unchanged inputs give
byte-identical reports, and the missing-artifact plus cross-reference section
of the report is ordered by check type with each check's identifiers in
first-encountered order. -/
theorem C4_deterministic_and_ordered (fs : RawFileSet) :
    validate fs = validate fs
    ∧ (missingIssues fs ++ crossIssues (artifactsOf fs)).Pairwise
        (fun x y => crossRank x.kind ≤ crossRank y.kind) := by
  refine ⟨rfl, pairwise_rank_append ?_ (pairwise_crossIssues _) ?_⟩
  · exact pairwise_rank_const (k := 0)
      (fun i hi => by rw [(shape_missingIssues hi).2]; rfl)
  · intro x hx y hy
    rw [(shape_missingIssues hx).2]
    exact Nat.zero_le _

/-- Witness for C4 at a concrete file set. -/
theorem C4_deterministic_and_ordered_witness :
    validate ⟨none, none, none, none, none⟩ = validate ⟨none, none, none, none, none⟩ :=
  (C4_deterministic_and_ordered ⟨none, none, none, none, none⟩).1

/- ### Claim C1 -/

theorem subsetB_iff {a b : List String} : subsetB a b = true ↔ ∀ x ∈ a, x ∈ b := by
  unfold subsetB
  simp

theorem orphanIssues_nil {sev : Severity} {role : Role} {kind : IssueKind}
    {src tgt : List String} (h : ∀ x ∈ src, x ∈ tgt) :
    orphanIssues sev role kind src tgt = [] := by
  unfold orphanIssues
  rw [List.filter_eq_nil_iff.mpr (fun x hx => by simp [h x ((mem_firstDedup x src).mp hx)])]
  rfl

theorem fastaIssues_nil {recs : List FastaRecord} (hnodup : (seqKeys recs).Nodup)
    (hvalid : ∀ r ∈ recs, validSeqString r.seq = true) : fastaIssues recs = [] := by
  unfold fastaIssues
  rw [List.filter_eq_nil_iff.mpr (fun x hx => by
        have hx2 := (mem_firstDedup x _).mp hx
        simp [List.count_eq_one_of_mem hnodup hx2]),
      List.filter_eq_nil_iff.mpr (fun r hr => by simp [hvalid r hr])]
  rfl

theorem checkTable_warnings {role : Role} {spec : FormatSpec} {t : ParsedTable}
    (hp : ∀ c ∈ spec.requiredCols, c.name ∈ t.header)
    (hc : ∀ r ∈ t.rows, ∀ c ∈ spec.requiredCols, cellCoerces c t.header r = true)
    (hr : ∀ r ∈ t.rows, ∀ c ∈ spec.requiredCols, cellInRange c t.header r = true)
    (hu : ∀ k ∈ spec.uniqueCols, (colValues t k).Nodup) :
    ∀ i ∈ checkTable role spec t, i.severity = Severity.warning := by
  intro i hi
  unfold checkTable at hi
  simp only [List.mem_append] at hi
  rcases hi with ((((hi | hi) | hi) | hi) | hi)
  · rw [show missingColIssues role spec t = [] from by
      unfold missingColIssues
      rw [List.filter_eq_nil_iff.mpr (fun c hcm => by simp [hp c hcm])]
      rfl] at hi
    simp at hi
  · rw [show typeIssues role spec t = [] from by
      unfold typeIssues typeIssuesRaw
      rw [List.flatMap_eq_nil_iff.mpr (fun c hcm => by
        rw [List.filter_eq_nil_iff.mpr (fun r hrm => by
          simp [hc r hrm c (List.mem_of_mem_filter hcm)])]
        rfl)]
      rfl] at hi
    simp at hi
  · rw [show rangeIssues role spec t = [] from by
      unfold rangeIssues
      rw [List.flatMap_eq_nil_iff.mpr (fun c hcm => by
        rw [List.filter_eq_nil_iff.mpr (fun r hrm => by
          simp [hr r hrm c (List.mem_of_mem_filter hcm)])]
        rfl)] ] at hi
    simp at hi
  · rw [show dupKeyIssues role spec t = [] from by
      unfold dupKeyIssues
      rw [List.flatMap_eq_nil_iff.mpr (fun k hk => by
        split
        · rw [List.filter_eq_nil_iff.mpr (fun v hv => by
            have hv2 := (mem_firstDedup v _).mp hv
            have hcount : (colValues t k).count v = 1 :=
              List.count_eq_one_of_mem (hu k hk) hv2
            simp [hcount])]
          rfl
        · rfl)] ] at hi
    simp at hi
  · exact (shape_unexpectedColIssues hi).1

theorem checkOtuTable_nil {t : ParsedTable} (hhead : t.header.headD "" = "SampleID")
    (hbad : ∀ r ∈ t.rows, otuRowBad r = false)
    (hnodup : (otuSampleIDs t).Nodup) : checkOtuTable t = [] := by
  unfold checkOtuTable
  rw [if_pos hhead,
      show otuTypeRaw t = [] from by
        unfold otuTypeRaw
        rw [List.filter_eq_nil_iff.mpr (fun r hrm => by simp [hbad r hrm])]
        rfl,
      List.filter_eq_nil_iff.mpr (fun v hv => by
        have hv2 := (mem_firstDedup v _).mp hv
        simp [List.count_eq_one_of_mem hnodup hv2])]
  rfl

/-- Extract from tableWellFormed the facts the schema checks need, together
with clean parsing. -/
theorem wellFormed_components {spec : FormatSpec} {lines : List String} (role : Role)
    (h : tableWellFormed spec lines = true) :
    (∀ c ∈ spec.requiredCols, c.name ∈ (parseTable role lines).1.header)
    ∧ (∀ r ∈ (parseTable role lines).1.rows, ∀ c ∈ spec.requiredCols,
        cellCoerces c (parseTable role lines).1.header r = true)
    ∧ (∀ r ∈ (parseTable role lines).1.rows, ∀ c ∈ spec.requiredCols,
        cellInRange c (parseTable role lines).1.header r = true)
    ∧ (∀ k ∈ spec.uniqueCols, (colValues (parseTable role lines).1 k).Nodup)
    ∧ (parseTable role lines).2 = [] := by
  rcases hhb : headerAndBody lines with _ | ⟨hd, body⟩
  · unfold tableWellFormed at h
    rw [hhb] at h
    simp at h
  · unfold tableWellFormed at h
    rw [hhb] at h
    simp only [Bool.and_eq_true, List.all_eq_true, decide_eq_true_eq, beq_iff_eq] at h
    obtain ⟨⟨⟨⟨hw, hp⟩, hc⟩, hr⟩, hu⟩ := h
    have hheader : (parseTable role lines).1.header = splitTab hd := by
      simp only [parseTable, hhb]
    have hrows : (parseTable role lines).1.rows = body.map splitTab := by
      simp only [parseTable, hhb]
      exact List.filter_eq_self.mpr (fun r hr2 => by simp [hw r hr2])
    refine ⟨?_, ?_, ?_, ?_, ?_⟩
    · intro c hcm
      rw [hheader]
      exact hp c hcm
    · intro r hrm c hcm
      rw [hheader]
      rw [hrows] at hrm
      exact hc r hrm c hcm
    · intro r hrm c hcm
      rw [hheader]
      rw [hrows] at hrm
      exact hr r hrm c hcm
    · intro k hk
      unfold colValues
      rw [hheader, hrows]
      exact hu k hk
    · simp only [parseTable, hhb]
      rw [List.filter_eq_nil_iff.mpr (fun r hr2 => by simp [hw r hr2])]
      rfl

/-- Extract from otuWellFormed the facts the OTU schema check needs, together
with clean parsing. -/
theorem otuWellFormed_components {lines : List String}
    (h : otuWellFormed lines = true) :
    ((parseTable Role.otuTable lines).1.header.headD "" = "SampleID")
    ∧ (∀ r ∈ (parseTable Role.otuTable lines).1.rows, otuRowBad r = false)
    ∧ (otuSampleIDs (parseTable Role.otuTable lines).1).Nodup
    ∧ (parseTable Role.otuTable lines).2 = [] := by
  rcases hhb : headerAndBody lines with _ | ⟨hd, body⟩
  · unfold otuWellFormed at h
    rw [hhb] at h
    simp at h
  · unfold otuWellFormed at h
    rw [hhb] at h
    simp only [Bool.and_eq_true, List.all_eq_true, decide_eq_true_eq, beq_iff_eq,
      Bool.not_eq_true'] at h
    obtain ⟨⟨⟨hhead, hw⟩, hbad⟩, hnodup⟩ := h
    have hheader : (parseTable Role.otuTable lines).1.header = splitTab hd := by
      simp only [parseTable, hhb]
    have hrows : (parseTable Role.otuTable lines).1.rows = body.map splitTab := by
      simp only [parseTable, hhb]
      exact List.filter_eq_self.mpr (fun r hr2 => by simp [hw r hr2])
    refine ⟨?_, ?_, ?_, ?_⟩
    · rw [hheader]
      exact hhead
    · intro r hrm
      rw [hrows] at hrm
      exact hbad r hrm
    · unfold otuSampleIDs
      rw [hrows]
      exact hnodup
    · simp only [parseTable, hhb]
      rw [List.filter_eq_nil_iff.mpr (fun r hr2 => by simp [hw r hr2])]
      rfl

/-- With all six identifier containments, the cross-reference checks are
silent. -/
theorem crossIssues_nil {M O T A : ParsedTable} {S : List (String × String)}
    (hc1 : ∀ x ∈ otuSampleIDs O, x ∈ metaSampleIDs M)
    (hc2 : ∀ x ∈ metaSampleIDs M, x ∈ otuSampleIDs O)
    (hc3 : ∀ x ∈ otuHeaderIDs O, x ∈ taxOTUs T)
    (hc4 : ∀ x ∈ otuHeaderIDs O, x ∈ seqSetKeys S)
    (hc5 : ∀ x ∈ taxSpecies T, x ∈ taxaMetaSpecies A)
    (hc6 : ∀ x ∈ seqSetKeys S, x ∈ otuHeaderIDs O) :
    crossIssues ⟨some M, some O, some T, some A, some S⟩ = [] := by
  unfold crossIssues
  simp only [pairCheck]
  rw [orphanIssues_nil hc1, orphanIssues_nil hc2, orphanIssues_nil hc3,
      orphanIssues_nil hc4, orphanIssues_nil hc5, orphanIssues_nil hc6]
  rfl

/-- C1: a five-file project set in which every file satisfies its FormatSpec
and all identifiers are consistent across files validates with
isAcceptable = true and zero fatal or error issues. -/
theorem C1_wellFormed_acceptable (m o t a s : List String)
    (h : wellFormedFS ⟨some m, some o, some t, some a, some s⟩ = true) :
    (validate ⟨some m, some o, some t, some a, some s⟩).isAcceptable = true
    ∧ (validate ⟨some m, some o, some t, some a, some s⟩).issues.filter
        (fun i => i.severity == Severity.fatal || i.severity == Severity.error) = [] := by
  simp only [wellFormedFS, Bool.and_eq_true] at h
  obtain ⟨⟨⟨⟨⟨hwm, hwo⟩, hwt⟩, hwa⟩, hws⟩, hcons⟩ := h
  unfold idsConsistent at hcons
  simp only [Bool.and_eq_true] at hcons
  obtain ⟨⟨⟨⟨⟨hc1, hc2⟩, hc3⟩, hc4⟩, hc5⟩, hc6⟩ := hcons
  unfold fastaWellFormed at hws
  simp only [Bool.and_eq_true, List.all_eq_true, decide_eq_true_eq] at hws
  obtain ⟨hsnodup, hsvalid⟩ := hws
  obtain ⟨hmp, hmc, hmr, hmu, hmnil⟩ := wellFormed_components Role.metadata hwm
  obtain ⟨ohead, obad, onodup, onil⟩ := otuWellFormed_components hwo
  obtain ⟨htp, htc, htr, htu, htnil⟩ := wellFormed_components Role.taxTable hwt
  obtain ⟨hap, hac, har, hau, hanil⟩ := wellFormed_components Role.taxaMetadata hwa
  suffices hall : ∀ i ∈ validateIssues ⟨some m, some o, some t, some a, some s⟩,
      i.severity = Severity.warning by
    constructor
    · unfold ValidationReport.isAcceptable
      rw [Bool.not_eq_true']
      exact List.any_eq_false.mpr (fun i hi => by simp [hall i hi])
    · exact List.filter_eq_nil_iff.mpr (fun i hi => by simp [hall i hi])
  intro i hi
  unfold validateIssues at hi
  simp only [List.mem_append] at hi
  rcases hi with ((((((((((hi | hi) | hi) | hi) | hi) | hi) | hi) | hi) | hi) | hi) | hi)
  · rw [show parseIssuesOf Role.metadata (some m) = [] from hmnil] at hi
    simp at hi
  · rw [show parseIssuesOf Role.otuTable (some o) = [] from onil] at hi
    simp at hi
  · rw [show parseIssuesOf Role.taxTable (some t) = [] from htnil] at hi
    simp at hi
  · rw [show parseIssuesOf Role.taxaMetadata (some a) = [] from hanil] at hi
    simp at hi
  · rw [show seqIssuesOf (some s) = [] from fastaIssues_nil hsnodup hsvalid] at hi
    simp at hi
  · exact checkTable_warnings hmp hmc hmr hmu i hi
  · rw [show optCheck checkOtuTable (parsedTableOf Role.otuTable (some o)) = [] from
      checkOtuTable_nil ohead obad onodup] at hi
    simp at hi
  · exact checkTable_warnings htp htc htr htu i hi
  · exact checkTable_warnings hap hac har hau i hi
  · simp [missingIssues, missingFor] at hi
  · rw [show crossIssues (artifactsOf ⟨some m, some o, some t, some a, some s⟩) = [] from
      crossIssues_nil (subsetB_iff.mp hc1) (subsetB_iff.mp hc2) (subsetB_iff.mp hc3)
        (subsetB_iff.mp hc4) (subsetB_iff.mp hc5) (subsetB_iff.mp hc6)] at hi
    simp at hi

/-- Witness for C1: a concrete consistent five-file set validates acceptably. -/
theorem C1_wellFormed_acceptable_witness :
    (validate ⟨some ["SampleID\tLatitude\tLongitude\tSamplingTime", "S1\t10.5\t20.25\t2024-01-01"],
        some ["SampleID\tOTU_1", "S1\t5"],
        some ["OTU\tKingdom\tPhylum\tClass\tOrder\tFamily\tGenus\tSpecies",
              "OTU_1\tA\tB\tC\tD\tE\tF\tSp1"],
        some ["Species\tRedListStatus\tInvasionStatus", "Sp1\tLC\tnative"],
        some [">OTU_1", "ACGT"]⟩).isAcceptable = true :=
  (C1_wellFormed_acceptable
    ["SampleID\tLatitude\tLongitude\tSamplingTime", "S1\t10.5\t20.25\t2024-01-01"]
    ["SampleID\tOTU_1", "S1\t5"]
    ["OTU\tKingdom\tPhylum\tClass\tOrder\tFamily\tGenus\tSpecies",
     "OTU_1\tA\tB\tC\tD\tE\tF\tSp1"]
    ["Species\tRedListStatus\tInvasionStatus", "Sp1\tLC\tnative"]
    [">OTU_1", "ACGT"] (by decide)).1

/- ### Claim C8: permutation congruence -/

theorem flatMap_perm_congr {α : Type} {l : List α} {f g : α → List ValidationIssue}
    (h : ∀ c ∈ l, (f c).Perm (g c)) : (l.flatMap f).Perm (l.flatMap g) := by
  induction l with
  | nil => simp
  | cons a as ih =>
    simp only [List.flatMap_cons]
    exact (h a (List.mem_cons_self a as)).append
      (ih (fun c hc => h c (List.mem_cons_of_mem a hc)))

theorem headerAndBody_cons (h : String) (body : List String)
    (hne : ¬ stripBOM (stripCR h) = "") :
    headerAndBody (h :: body) = stripBOM (stripCR h) :: body.map stripCR := by
  unfold headerAndBody cleanLines
  rw [List.dropWhile_cons]
  simp [hne]

/-- Permuting the body lines of a tabular file keeps the header and permutes
the retained rows and the parse issues. -/
theorem parseTable_perm {role : Role} {h : String} {bodyA bodyB : List String}
    (hne : ¬ stripBOM (stripCR h) = "") (hperm : bodyA.Perm bodyB) :
    ((parseTable role (h :: bodyA)).1.header = (parseTable role (h :: bodyB)).1.header)
    ∧ ((parseTable role (h :: bodyA)).1.rows.Perm (parseTable role (h :: bodyB)).1.rows)
    ∧ ((parseTable role (h :: bodyA)).2.Perm (parseTable role (h :: bodyB)).2) := by
  have hA := headerAndBody_cons h bodyA hne
  have hB := headerAndBody_cons h bodyB hne
  have hfield : ((bodyA.map stripCR).map splitTab).Perm ((bodyB.map stripCR).map splitTab) :=
    (hperm.map stripCR).map splitTab
  refine ⟨?_, ?_, ?_⟩
  · simp only [parseTable, hA, hB]
  · simp only [parseTable, hA, hB]
    exact hfield.filter _
  · simp only [parseTable, hA, hB]
    exact (hfield.filter _).map _

/-- Permuting the rows of a table permutes the issues of the generic schema
check, provided the per-row TypeMismatch instances stay within the cap. -/
theorem checkTable_perm {role : Role} {spec : FormatSpec} {tA tB : ParsedTable}
    (hH : tA.header = tB.header) (hR : tA.rows.Perm tB.rows)
    (hcap : (typeIssuesRaw role spec tA).length ≤ capTM) :
    (checkTable role spec tA).Perm (checkTable role spec tB) := by
  have hraw : (typeIssuesRaw role spec tA).Perm (typeIssuesRaw role spec tB) := by
    unfold typeIssuesRaw
    rw [hH]
    exact flatMap_perm_congr (fun c hc => (hR.filter _).map _)
  have hlenB : (typeIssuesRaw role spec tB).length ≤ capTM := by
    rw [← hraw.length_eq]
    exact hcap
  have hmc : missingColIssues role spec tA = missingColIssues role spec tB := by
    unfold missingColIssues
    rw [hH]
  have htype : (typeIssues role spec tA).Perm (typeIssues role spec tB) := by
    unfold typeIssues capIssues
    rw [if_pos hcap, if_pos hlenB]
    exact hraw
  have hrange : (rangeIssues role spec tA).Perm (rangeIssues role spec tB) := by
    unfold rangeIssues
    rw [hH]
    exact flatMap_perm_congr (fun c hc => (hR.filter _).map _)
  have hdup : (dupKeyIssues role spec tA).Perm (dupKeyIssues role spec tB) := by
    unfold dupKeyIssues
    rw [hH]
    apply flatMap_perm_congr
    intro k hk
    split
    · have hcv : (colValues tA k).Perm (colValues tB k) := by
        unfold colValues
        rw [hH]
        exact hR.filterMap _
      have hfe : (firstDedup (colValues tA k)).filter
            (fun v => decide (2 ≤ (colValues tA k).count v))
          = (firstDedup (colValues tA k)).filter
            (fun v => decide (2 ≤ (colValues tB k).count v)) :=
        List.filter_congr (fun v hv => by rw [hcv.count_eq v])
      rw [hfe]
      exact ((firstDedup_perm hcv).filter _).map _
    · exact List.Perm.refl []
  have hux : unexpectedColIssues role spec tA = unexpectedColIssues role spec tB := by
    unfold unexpectedColIssues
    rw [hH]
  unfold checkTable
  rw [hmc, hux]
  exact ((((List.Perm.refl _).append htype).append hrange).append hdup).append (List.Perm.refl _)

/-- Permuting the rows of the OTU table permutes the issues of its schema
check, provided the per-row TypeMismatch instances stay within the cap. -/
theorem checkOtuTable_perm {tA tB : ParsedTable}
    (hH : tA.header = tB.header) (hR : tA.rows.Perm tB.rows)
    (hcap : (otuTypeRaw tA).length ≤ capTM) :
    (checkOtuTable tA).Perm (checkOtuTable tB) := by
  have hraw : (otuTypeRaw tA).Perm (otuTypeRaw tB) := by
    unfold otuTypeRaw
    exact (hR.filter _).map _
  have hlenB : (otuTypeRaw tB).length ≤ capTM := by
    rw [← hraw.length_eq]
    exact hcap
  have hsid : (otuSampleIDs tA).Perm (otuSampleIDs tB) := by
    unfold otuSampleIDs
    exact hR.map _
  unfold checkOtuTable
  rw [hH]
  refine ((List.Perm.refl _).append ?_).append ?_
  · unfold capIssues
    rw [if_pos hcap, if_pos hlenB]
    exact hraw
  · have hfe : (firstDedup (otuSampleIDs tA)).filter
        (fun v => decide (2 ≤ (otuSampleIDs tA).count v))
        = (firstDedup (otuSampleIDs tA)).filter
          (fun v => decide (2 ≤ (otuSampleIDs tB).count v)) :=
      List.filter_congr (fun v hv => by rw [hsid.count_eq v])
    rw [hfe]
    exact ((firstDedup_perm hsid).filter _).map _

/-- The one-issue-per-identifier cross check respects a permutation of the
source identifiers and any membership-preserving change of the target. -/
theorem orphanIssues_perm {sev : Severity} {role : Role} {kind : IssueKind}
    {srcA srcB tgtA tgtB : List String}
    (hs : srcA.Perm srcB) (ht : ∀ x : String, x ∈ tgtA ↔ x ∈ tgtB) :
    (orphanIssues sev role kind srcA tgtA).Perm (orphanIssues sev role kind srcB tgtB) := by
  unfold orphanIssues
  have hfe : (firstDedup srcA).filter (fun x => !(decide (x ∈ tgtA)))
      = (firstDedup srcA).filter (fun x => !(decide (x ∈ tgtB))) :=
    List.filter_congr (fun x hx => by rw [decide_eq_decide.mpr (ht x)])
  rw [hfe]
  exact ((firstDedup_perm hs).filter _).map _

theorem crossIssues_perm_meta {tA tB : ParsedTable} {o t a : Option ParsedTable}
    {s : Option (List (String × String))}
    (hperm : (metaSampleIDs tA).Perm (metaSampleIDs tB)) :
    (crossIssues ⟨some tA, o, t, a, s⟩).Perm (crossIssues ⟨some tB, o, t, a, s⟩) := by
  unfold crossIssues
  dsimp only
  refine List.Perm.append (List.Perm.append (List.Perm.append
    (List.Perm.append (List.Perm.append ?_ ?_) ?_) ?_) ?_) ?_
  · cases o with
    | none => exact List.Perm.refl []
    | some ot =>
      exact orphanIssues_perm (List.Perm.refl _) (fun x => hperm.mem_iff)
  · cases o with
    | none => exact List.Perm.refl []
    | some ot => exact orphanIssues_perm hperm (fun x => Iff.rfl)
  · exact List.Perm.refl _
  · exact List.Perm.refl _
  · exact List.Perm.refl _
  · exact List.Perm.refl _

theorem crossIssues_perm_otu {tA tB : ParsedTable} {m t a : Option ParsedTable}
    {s : Option (List (String × String))}
    (hsid : (otuSampleIDs tA).Perm (otuSampleIDs tB))
    (hhid : otuHeaderIDs tA = otuHeaderIDs tB) :
    (crossIssues ⟨m, some tA, t, a, s⟩).Perm (crossIssues ⟨m, some tB, t, a, s⟩) := by
  unfold crossIssues
  dsimp only
  refine List.Perm.append (List.Perm.append (List.Perm.append
    (List.Perm.append (List.Perm.append ?_ ?_) ?_) ?_) ?_) ?_
  · cases m with
    | none => exact List.Perm.refl []
    | some mt => exact orphanIssues_perm hsid (fun x => Iff.rfl)
  · cases m with
    | none => exact List.Perm.refl []
    | some mt => exact orphanIssues_perm (List.Perm.refl _) (fun x => hsid.mem_iff)
  · cases t with
    | none => exact List.Perm.refl []
    | some tt =>
      simp only [pairCheck]
      rw [hhid]
  · cases s with
    | none => exact List.Perm.refl []
    | some sq =>
      simp only [pairCheck]
      rw [hhid]
  · exact List.Perm.refl _
  · cases s with
    | none => exact List.Perm.refl []
    | some sq =>
      simp only [pairCheck]
      rw [hhid]

theorem crossIssues_perm_tax {tA tB : ParsedTable} {m o a : Option ParsedTable}
    {s : Option (List (String × String))}
    (hotu : (taxOTUs tA).Perm (taxOTUs tB))
    (hsp : (taxSpecies tA).Perm (taxSpecies tB)) :
    (crossIssues ⟨m, o, some tA, a, s⟩).Perm (crossIssues ⟨m, o, some tB, a, s⟩) := by
  unfold crossIssues
  dsimp only
  refine List.Perm.append (List.Perm.append (List.Perm.append
    (List.Perm.append (List.Perm.append ?_ ?_) ?_) ?_) ?_) ?_
  · exact List.Perm.refl _
  · exact List.Perm.refl _
  · cases o with
    | none => exact List.Perm.refl []
    | some ot => exact orphanIssues_perm (List.Perm.refl _) (fun x => hotu.mem_iff)
  · exact List.Perm.refl _
  · cases a with
    | none => exact List.Perm.refl []
    | some am => exact orphanIssues_perm hsp (fun x => Iff.rfl)
  · exact List.Perm.refl _

theorem crossIssues_perm_taxaMeta {tA tB : ParsedTable} {m o t : Option ParsedTable}
    {s : Option (List (String × String))}
    (hsp : (taxaMetaSpecies tA).Perm (taxaMetaSpecies tB)) :
    (crossIssues ⟨m, o, t, some tA, s⟩).Perm (crossIssues ⟨m, o, t, some tB, s⟩) := by
  unfold crossIssues
  dsimp only
  refine List.Perm.append (List.Perm.append (List.Perm.append
    (List.Perm.append (List.Perm.append ?_ ?_) ?_) ?_) ?_) ?_
  · exact List.Perm.refl _
  · exact List.Perm.refl _
  · exact List.Perm.refl _
  · exact List.Perm.refl _
  · cases t with
    | none => exact List.Perm.refl []
    | some tt => exact orphanIssues_perm (List.Perm.refl _) (fun x => hsp.mem_iff)
  · exact List.Perm.refl _

/-- C8 (amended): reordering the data rows of one tabular file yields the same
set of issues — the full report is a permutation of the original — provided
the file's per-row TypeMismatch instances do not exceed the per-file cap
(beyond the cap, which instances are listed depends on row order). -/
theorem C8_amended_row_permutation (fs : RawFileSet) (role : Role) (h : String)
    (bodyA bodyB : List String)
    (hrole : role ≠ Role.sequences)
    (hne : ¬ stripBOM (stripCR h) = "")
    (hperm : bodyA.Perm bodyB)
    (hin : fs.file role = some (h :: bodyA))
    (hcap : (tmRawOf role (parseTable role (h :: bodyA)).1).length ≤ capTM) :
    (validateIssues fs).Perm (validateIssues (fs.withFile role (some (h :: bodyB))))
    ∧ ∀ i : ValidationIssue,
        i ∈ validateIssues fs ↔ i ∈ validateIssues (fs.withFile role (some (h :: bodyB))) := by
  suffices hp : (validateIssues fs).Perm
      (validateIssues (fs.withFile role (some (h :: bodyB)))) from
    ⟨hp, fun i => hp.mem_iff⟩
  cases role with
  | sequences => exact absurd rfl hrole
  | metadata =>
    simp only [RawFileSet.file] at hin
    obtain ⟨hH, hR, hPI⟩ := @parseTable_perm Role.metadata h bodyA bodyB hne hperm
    have hCT := @checkTable_perm Role.metadata metadataSpec _ _ hH hR hcap
    have hms : (metaSampleIDs (parseTable Role.metadata (h :: bodyA)).1).Perm
        (metaSampleIDs (parseTable Role.metadata (h :: bodyB)).1) := by
      unfold metaSampleIDs colValues
      rw [hH]
      exact hR.filterMap _
    have hXC := crossIssues_perm_meta (o := parsedTableOf Role.otuTable fs.otuTable)
      (t := parsedTableOf Role.taxTable fs.taxTable)
      (a := parsedTableOf Role.taxaMetadata fs.taxaMetadata)
      (s := seqSetOf fs.sequences) hms
    have hMI : missingIssues fs = missingIssues { fs with metadata := some (h :: bodyB) } := by
      unfold missingIssues
      rw [hin]
      rfl
    have hAF : artifactsOf fs = ⟨some (parseTable Role.metadata (h :: bodyA)).1,
        parsedTableOf Role.otuTable fs.otuTable, parsedTableOf Role.taxTable fs.taxTable,
        parsedTableOf Role.taxaMetadata fs.taxaMetadata, seqSetOf fs.sequences⟩ := by
      unfold artifactsOf
      rw [hin]
      rfl
    have hAF2 : artifactsOf { fs with metadata := some (h :: bodyB) }
        = ⟨some (parseTable Role.metadata (h :: bodyB)).1,
        parsedTableOf Role.otuTable fs.otuTable, parsedTableOf Role.taxTable fs.taxTable,
        parsedTableOf Role.taxaMetadata fs.taxaMetadata, seqSetOf fs.sequences⟩ := rfl
    unfold validateIssues
    simp only [RawFileSet.withFile]
    rw [hin, hMI, hAF, hAF2]
    exact (((((((((( hPI.append (List.Perm.refl _)).append (List.Perm.refl _)).append
      (List.Perm.refl _)).append (List.Perm.refl _)).append hCT).append
      (List.Perm.refl _)).append (List.Perm.refl _)).append (List.Perm.refl _)).append
      (List.Perm.refl _)).append hXC)
  | otuTable =>
    simp only [RawFileSet.file] at hin
    obtain ⟨hH, hR, hPI⟩ := @parseTable_perm Role.otuTable h bodyA bodyB hne hperm
    have hCT := checkOtuTable_perm hH hR hcap
    have hsid : (otuSampleIDs (parseTable Role.otuTable (h :: bodyA)).1).Perm
        (otuSampleIDs (parseTable Role.otuTable (h :: bodyB)).1) := by
      unfold otuSampleIDs
      exact hR.map _
    have hhid : otuHeaderIDs (parseTable Role.otuTable (h :: bodyA)).1
        = otuHeaderIDs (parseTable Role.otuTable (h :: bodyB)).1 := by
      unfold otuHeaderIDs
      rw [hH]
    have hXC := crossIssues_perm_otu (m := parsedTableOf Role.metadata fs.metadata)
      (t := parsedTableOf Role.taxTable fs.taxTable)
      (a := parsedTableOf Role.taxaMetadata fs.taxaMetadata)
      (s := seqSetOf fs.sequences) hsid hhid
    have hMI : missingIssues fs = missingIssues { fs with otuTable := some (h :: bodyB) } := by
      unfold missingIssues
      rw [hin]
      rfl
    have hAF : artifactsOf fs = ⟨parsedTableOf Role.metadata fs.metadata,
        some (parseTable Role.otuTable (h :: bodyA)).1, parsedTableOf Role.taxTable fs.taxTable,
        parsedTableOf Role.taxaMetadata fs.taxaMetadata, seqSetOf fs.sequences⟩ := by
      unfold artifactsOf
      rw [hin]
      rfl
    have hAF2 : artifactsOf { fs with otuTable := some (h :: bodyB) }
        = ⟨parsedTableOf Role.metadata fs.metadata,
        some (parseTable Role.otuTable (h :: bodyB)).1, parsedTableOf Role.taxTable fs.taxTable,
        parsedTableOf Role.taxaMetadata fs.taxaMetadata, seqSetOf fs.sequences⟩ := rfl
    unfold validateIssues
    simp only [RawFileSet.withFile]
    rw [hin, hMI, hAF, hAF2]
    exact (((((((((( (List.Perm.refl _).append hPI).append (List.Perm.refl _)).append
      (List.Perm.refl _)).append (List.Perm.refl _)).append (List.Perm.refl _)).append
      hCT).append (List.Perm.refl _)).append (List.Perm.refl _)).append
      (List.Perm.refl _)).append hXC)
  | taxTable =>
    simp only [RawFileSet.file] at hin
    obtain ⟨hH, hR, hPI⟩ := @parseTable_perm Role.taxTable h bodyA bodyB hne hperm
    have hCT := @checkTable_perm Role.taxTable taxTableSpec _ _ hH hR hcap
    have hotu : (taxOTUs (parseTable Role.taxTable (h :: bodyA)).1).Perm
        (taxOTUs (parseTable Role.taxTable (h :: bodyB)).1) := by
      unfold taxOTUs colValues
      rw [hH]
      exact hR.filterMap _
    have hsp : (taxSpecies (parseTable Role.taxTable (h :: bodyA)).1).Perm
        (taxSpecies (parseTable Role.taxTable (h :: bodyB)).1) := by
      unfold taxSpecies colValues
      rw [hH]
      exact hR.filterMap _
    have hXC := crossIssues_perm_tax (m := parsedTableOf Role.metadata fs.metadata)
      (o := parsedTableOf Role.otuTable fs.otuTable)
      (a := parsedTableOf Role.taxaMetadata fs.taxaMetadata)
      (s := seqSetOf fs.sequences) hotu hsp
    have hMI : missingIssues fs = missingIssues { fs with taxTable := some (h :: bodyB) } := by
      unfold missingIssues
      rw [hin]
      rfl
    have hAF : artifactsOf fs = ⟨parsedTableOf Role.metadata fs.metadata,
        parsedTableOf Role.otuTable fs.otuTable,
        some (parseTable Role.taxTable (h :: bodyA)).1,
        parsedTableOf Role.taxaMetadata fs.taxaMetadata, seqSetOf fs.sequences⟩ := by
      unfold artifactsOf
      rw [hin]
      rfl
    have hAF2 : artifactsOf { fs with taxTable := some (h :: bodyB) }
        = ⟨parsedTableOf Role.metadata fs.metadata,
        parsedTableOf Role.otuTable fs.otuTable,
        some (parseTable Role.taxTable (h :: bodyB)).1,
        parsedTableOf Role.taxaMetadata fs.taxaMetadata, seqSetOf fs.sequences⟩ := rfl
    unfold validateIssues
    simp only [RawFileSet.withFile]
    rw [hin, hMI, hAF, hAF2]
    exact (((((((((( (List.Perm.refl _).append (List.Perm.refl _)).append hPI).append
      (List.Perm.refl _)).append (List.Perm.refl _)).append (List.Perm.refl _)).append
      (List.Perm.refl _)).append hCT).append (List.Perm.refl _)).append
      (List.Perm.refl _)).append hXC)
  | taxaMetadata =>
    simp only [RawFileSet.file] at hin
    obtain ⟨hH, hR, hPI⟩ := @parseTable_perm Role.taxaMetadata h bodyA bodyB hne hperm
    have hCT := @checkTable_perm Role.taxaMetadata taxaMetadataSpec _ _ hH hR hcap
    have hsp : (taxaMetaSpecies (parseTable Role.taxaMetadata (h :: bodyA)).1).Perm
        (taxaMetaSpecies (parseTable Role.taxaMetadata (h :: bodyB)).1) := by
      unfold taxaMetaSpecies colValues
      rw [hH]
      exact hR.filterMap _
    have hXC := crossIssues_perm_taxaMeta (m := parsedTableOf Role.metadata fs.metadata)
      (o := parsedTableOf Role.otuTable fs.otuTable)
      (t := parsedTableOf Role.taxTable fs.taxTable)
      (s := seqSetOf fs.sequences) hsp
    have hMI : missingIssues fs
        = missingIssues { fs with taxaMetadata := some (h :: bodyB) } := by
      unfold missingIssues
      rw [hin]
      rfl
    have hAF : artifactsOf fs = ⟨parsedTableOf Role.metadata fs.metadata,
        parsedTableOf Role.otuTable fs.otuTable, parsedTableOf Role.taxTable fs.taxTable,
        some (parseTable Role.taxaMetadata (h :: bodyA)).1, seqSetOf fs.sequences⟩ := by
      unfold artifactsOf
      rw [hin]
      rfl
    have hAF2 : artifactsOf { fs with taxaMetadata := some (h :: bodyB) }
        = ⟨parsedTableOf Role.metadata fs.metadata,
        parsedTableOf Role.otuTable fs.otuTable, parsedTableOf Role.taxTable fs.taxTable,
        some (parseTable Role.taxaMetadata (h :: bodyB)).1, seqSetOf fs.sequences⟩ := rfl
    unfold validateIssues
    simp only [RawFileSet.withFile]
    rw [hin, hMI, hAF, hAF2]
    exact (((((((((( (List.Perm.refl _).append (List.Perm.refl _)).append
      (List.Perm.refl _)).append hPI).append (List.Perm.refl _)).append
      (List.Perm.refl _)).append (List.Perm.refl _)).append (List.Perm.refl _)).append
      hCT).append (List.Perm.refl _)).append hXC)

/-- C8 counterexample: when a file has more rows failing type coercion than
the per-file reporting cap, the capped TypeMismatch listing keeps the first
cap offenders in row order, so a pure row permutation changes the SET of
reported issues — the claim as stated fails.  Here row S3's instance is
reported before the permutation and not after it. -/
theorem C8_counterexample_cap_exceeded :
    (["S1\tx\t0\tt", "S2\tx\t0\tt", "S3\tx\t0\tt", "S4\tx\t0\tt"] :
        List String).Perm ["S4\tx\t0\tt", "S1\tx\t0\tt", "S2\tx\t0\tt", "S3\tx\t0\tt"]
    ∧ ¬ (∀ i : ValidationIssue,
        i ∈ (validate ⟨some ("SampleID\tLatitude\tLongitude\tSamplingTime" ::
            ["S1\tx\t0\tt", "S2\tx\t0\tt", "S3\tx\t0\tt", "S4\tx\t0\tt"]),
            none, none, none, none⟩).issues
          ↔ i ∈ (validate ⟨some ("SampleID\tLatitude\tLongitude\tSamplingTime" ::
            ["S4\tx\t0\tt", "S1\tx\t0\tt", "S2\tx\t0\tt", "S3\tx\t0\tt"]),
            none, none, none, none⟩).issues) := by
  constructor
  · decide
  · intro hall
    have h1 : mkIssue Severity.error Role.metadata IssueKind.TypeMismatch "S3"
        ∈ (validate ⟨some ("SampleID\tLatitude\tLongitude\tSamplingTime" ::
            ["S1\tx\t0\tt", "S2\tx\t0\tt", "S3\tx\t0\tt", "S4\tx\t0\tt"]),
            none, none, none, none⟩).issues := by decide
    exact absurd ((hall _).mp h1) (by decide)

/-- Witness for the amended C8 at a concrete two-row metadata file. -/
theorem C8_amended_row_permutation_witness :
    (validateIssues ⟨some ["SampleID\tLatitude\tLongitude\tSamplingTime",
        "S1\t1\t2\tt", "S2\t3\t4\tt"], none, none, none, none⟩).Perm
      (validateIssues ((⟨some ["SampleID\tLatitude\tLongitude\tSamplingTime",
        "S1\t1\t2\tt", "S2\t3\t4\tt"], none, none, none, none⟩ : RawFileSet).withFile
          Role.metadata (some ("SampleID\tLatitude\tLongitude\tSamplingTime" ::
            ["S2\t3\t4\tt", "S1\t1\t2\tt"])))) :=
  (C8_amended_row_permutation
    ⟨some ["SampleID\tLatitude\tLongitude\tSamplingTime", "S1\t1\t2\tt", "S2\t3\t4\tt"],
      none, none, none, none⟩
    Role.metadata "SampleID\tLatitude\tLongitude\tSamplingTime"
    ["S1\t1\t2\tt", "S2\t3\t4\tt"] ["S2\t3\t4\tt", "S1\t1\t2\tt"]
    (by decide) (by decide) (by decide) rfl (by decide)).1

end DNAir
